import Mathlib

/-!
Employee tracking dashboard: the client-side view logic.

A shallow embedding of `static/js/admin.js` and `static/js/employee.js`.

* JavaScript numbers are modelled as `JsNum`: `NaN`, the two infinities, or a finite binary64
  value held as the rational it denotes.  Every arithmetic operation rounds its exact result to
  the nearest binary64 value, ties to even (`JsNum.toDouble`), with gradual underflow and
  overflow to infinity.  The sign of zero is not kept: nothing in the program divides by zero or
  prints a zero with a sign.
* A `Date` object is modelled by its time value, `JsDate = Option Int`: epoch milliseconds, `none`
  for an Invalid Date.  Everything that depends on the browser's local time zone goes through a
  `TimeZone` record.
* The DOM and the network are modelled by explicit state passing and a trace of effects.
-/

namespace EmployeeTracking

/-! ## JavaScript numbers -/

/-- A JavaScript number: `NaN`, an infinity, or a finite binary64 value. -/
inductive JsNum where
  | nan
  | inf (negative : Bool)
  | fin (value : ℚ)
  deriving DecidableEq, Repr

/-- An integer-valued JavaScript number, as `Math.floor` returns it. -/
inductive JsInt where
  | nan
  | inf (negative : Bool)
  | int (value : Int)
  deriving DecidableEq, Repr

namespace JsNum

/-- Rounding to the nearest integer, a tie going to the even neighbour. -/
def roundHalfEven (q : ℚ) : Int :=
  if q - ⌊q⌋ < 1 / 2 then ⌊q⌋
  else if 1 / 2 < q - ⌊q⌋ then ⌊q⌋ + 1
  else if ⌊q⌋ % 2 = 0 then ⌊q⌋
  else ⌊q⌋ + 1

/-- The exponent of the unit in the last place of a binary64 value near `q`: 52 below the
binary exponent of `q`, and never below the subnormal exponent -1074. -/
def ulpExponent (q : ℚ) : Int := max (Int.log 2 |q| - 52) (-1074)

/-- The largest finite binary64 value. -/
def maxDouble : ℚ := (2 ^ 53 - 1) * 2 ^ 971

/-- The binary64 value of a real number: round to nearest, ties to even; infinity when the
rounded magnitude exceeds the largest finite value. -/
def toDouble (q : ℚ) : JsNum :=
  if maxDouble < |(roundHalfEven (q / 2 ^ ulpExponent q) : ℚ) * 2 ^ ulpExponent q| then
    inf (decide (q < 0))
  else fin ((roundHalfEven (q / 2 ^ ulpExponent q) : ℚ) * 2 ^ ulpExponent q)

/-- JavaScript unary minus. -/
def neg : JsNum → JsNum
  | nan => nan
  | inf s => inf (!s)
  | fin x => fin (-x)

/-- JavaScript `a + b`. -/
def add : JsNum → JsNum → JsNum
  | fin x, fin y => toDouble (x + y)
  | fin _, inf s => inf s
  | inf s, fin _ => inf s
  | inf s, inf t => if s = t then inf s else nan
  | _, _ => nan

/-- JavaScript `a - b`. -/
def sub (a b : JsNum) : JsNum := add a (neg b)

/-- JavaScript `a * b`. -/
def mul : JsNum → JsNum → JsNum
  | fin x, fin y => toDouble (x * y)
  | fin x, inf s => if x = 0 then nan else inf (s != decide (x < 0))
  | inf s, fin y => if y = 0 then nan else inf (s != decide (y < 0))
  | inf s, inf t => inf (s != t)
  | _, _ => nan

/-- JavaScript `a / b`.  A zero divisor is taken as `+0` (it is never reached by the code
modelled here: the divisors are `60` and a length already tested to be positive). -/
def div : JsNum → JsNum → JsNum
  | fin x, fin y =>
    if y = 0 then (if x = 0 then nan else inf (decide (x < 0))) else toDouble (x / y)
  | fin _, inf _ => fin 0
  | inf s, fin y => inf (s != decide (y < 0))
  | _, _ => nan

/-- Rounding towards zero. -/
def truncate (q : ℚ) : Int := if 0 ≤ q then ⌊q⌋ else ⌈q⌉

/-- JavaScript `a % b`: the remainder takes the sign of the dividend and is exact. -/
def rem : JsNum → JsNum → JsNum
  | fin x, fin y => if y = 0 then nan else fin (x - y * (truncate (x / y) : ℚ))
  | fin x, inf _ => fin x
  | _, _ => nan

/-- JavaScript `Math.floor`. -/
def floor : JsNum → JsInt
  | nan => JsInt.nan
  | inf s => JsInt.inf s
  | fin x => JsInt.int ⌊x⌋

/-- JavaScript `a === b` on numbers: `NaN` equals nothing. -/
def strictEq {α : Type} [DecidableEq α] (a b : Option α) : Bool :=
  match a, b with
  | some x, some y => decide (x = y)
  | _, _ => false

/-- JavaScript `a < b` on numbers: false as soon as one side is `NaN`. -/
def lt {α : Type} [LT α] [DecidableRel (fun (x y : α) => x < y)] (a b : Option α) : Bool :=
  match a, b with
  | some x, some y => decide (x < y)
  | _, _ => false

end JsNum

namespace JsInt

/-- JavaScript `a > b` for an integer `b`: false when `a` is `NaN`. -/
def gt (a : JsInt) (b : Int) : Bool :=
  match a with
  | nan => false
  | inf s => !s
  | int x => decide (b < x)

/-- The decimal numbers with the digits of `n` cut `p` places from the right, rounded down and
up, that denote the binary64 value `n`; of two that do, the closer one, then the even one. -/
def shortestAt (n : Nat) (p : Nat) : Option Nat :=
  let lo := n / 10 ^ p * 10 ^ p
  let hi := lo + 10 ^ p
  let okLo := decide (JsNum.toDouble (lo : ℚ) = JsNum.fin (n : ℚ))
  let okHi := decide (JsNum.toDouble (hi : ℚ) = JsNum.fin (n : ℚ))
  if okLo && okHi then
    if n - lo < hi - n then some lo
    else if hi - n < n - lo then some hi
    else if (lo / 10 ^ p) % 2 = 0 then some lo
    else some hi
  else if okLo then some lo
  else if okHi then some hi
  else none

/-- The decimal number with the fewest significant digits whose binary64 value is `n`. -/
def shortest (n : Nat) : Nat :=
  ((List.range (Nat.toDigits 10 n).length).reverse.findSome? (shortestAt n)).getD n

/-- A list of digits without its trailing zeros. -/
def dropTrailingZeros (ds : List Char) : List Char :=
  (ds.reverse.dropWhile fun c => c = '0').reverse

/-- The text of a non-negative integer-valued number (`Number::toString`): its decimal digits
below `2^53`; above, the shortest digits that denote the value, padded with zeros up to 21
digits and in exponent form beyond. -/
def renderNat (n : Nat) : String :=
  if n < 2 ^ 53 then toString n
  else if shortest n < 10 ^ 21 then toString (shortest n)
  else
    match dropTrailingZeros (Nat.toDigits 10 (shortest n)) with
    | [] => "0"
    | [c] => String.mk [c] ++ "e+" ++ toString ((Nat.toDigits 10 (shortest n)).length - 1)
    | c :: rest =>
      String.mk (c :: '.' :: rest) ++ "e+"
        ++ toString ((Nat.toDigits 10 (shortest n)).length - 1)

/-- Template-literal rendering of an integer-valued number. -/
def render : JsInt → String
  | nan => "NaN"
  | inf false => "Infinity"
  | inf true => "-Infinity"
  | int x => if x < 0 then "-" ++ renderNat x.natAbs else renderNat x.natAbs

end JsInt

/-! ## Dates -/

/-- The time value of a `Date` object in epoch milliseconds; `none` is an Invalid Date. -/
abbrev JsDate := Option Int

/-- The local time zone of the browser, as far as the program observes it. -/
structure TimeZone where
  /-- Time value after `setHours(0, 0, 0, 0)`: local midnight of the local day of the instant. -/
  startOfDay : Int → Int
  /-- Result of `getHours()`. -/
  hours : Int → Nat
  /-- Result of `getMinutes()`. -/
  minutes : Int → Nat
  hours_lt : ∀ t, hours t < 24
  minutes_lt : ∀ t, minutes t < 60

namespace JsDate

/-- Method `date.setHours(0, 0, 0, 0)`. -/
def setHoursZero (tz : TimeZone) (d : JsDate) : JsDate := d.map tz.startOfDay

/-- Method `date.getTime()`: `NaN` for an Invalid Date. -/
def getTime (d : JsDate) : Option Int := d

/-- Method `date.getHours()`: `NaN` for an Invalid Date. -/
def getHours (tz : TimeZone) (d : JsDate) : Option Int := d.map fun t => (tz.hours t : Int)

/-- Method `date.getMinutes()`: `NaN` for an Invalid Date. -/
def getMinutes (tz : TimeZone) (d : JsDate) : JsNum :=
  match d with
  | some t => JsNum.fin (tz.minutes t : ℚ)
  | none => JsNum.nan

end JsDate

/-- Milliseconds in a minute. -/
def msPerMinute : Int := 60000

/-- Milliseconds in an hour. -/
def msPerHour : Int := 3600000

/-- Milliseconds in a day. -/
def msPerDay : Int := 86400000

/-- A time zone with a constant offset from UTC (`offset` in milliseconds, east positive). -/
def fixedOffset (offset : Int) : TimeZone where
  startOfDay t := (t + offset) / msPerDay * msPerDay - offset
  hours t := ((t + offset) % msPerDay / msPerHour).toNat
  minutes t := ((t + offset) % msPerHour / msPerMinute).toNat
  hours_lt t := by
    have h1 : 0 ≤ (t + offset) % msPerDay := Int.emod_nonneg _ (by decide)
    have h2 : (t + offset) % msPerDay < msPerDay := Int.emod_lt_of_pos _ (by decide)
    simp only [msPerDay, msPerHour] at *
    omega
  minutes_lt t := by
    have h1 : 0 ≤ (t + offset) % msPerHour := Int.emod_nonneg _ (by decide)
    have h2 : (t + offset) % msPerHour < msPerHour := Int.emod_lt_of_pos _ (by decide)
    simp only [msPerHour, msPerMinute] at *
    omega

/-- UTC as the local zone. -/
def utc : TimeZone := fixedOffset 0

/-! ## Data model -/

/-- An employee of the roster (`GET /api/employees`). -/
structure Employee where
  id : String
  name : String
  deriving DecidableEq, Repr

/-- A work session (`GET /api/works`).  `startTime` is `new Date(work.startTime)`; `endTime` is
`none` when the field is falsy (absent, `null`, empty) and `some (new Date(work.endTime))`
otherwise; `duration` and `videoLink` are `none` when the field is absent or `null`. -/
structure WorkSession where
  id : String
  employeeId : String
  employeeName : String
  workType : String
  startTime : JsDate
  endTime : Option JsDate
  status : String
  duration : Option String
  videoLink : Option String
  deriving DecidableEq, Repr

/-- Truthiness of an optional string field: absent, `null` and `""` are falsy. -/
def truthy (s : Option String) : Bool :=
  match s with
  | some v => decide (v ≠ "")
  | none => false

/-! ## Day bucketing -/

/-- The filter callback of `loadWorks` (admin.js 140-144) and `loadActiveWorks`
(employee.js 108-112): `workDate.getTime() === day.getTime()` after zeroing the time of day. -/
def onDay (tz : TimeZone) (day : Int) (work : WorkSession) : Bool :=
  let workDate := JsDate.setHoursZero tz work.startTime
  JsNum.strictEq (JsDate.getTime workDate) (JsDate.getTime (some day))

/-- The day bucket: `works.filter(...)` of `loadWorks`. -/
def dayBucket (tz : TimeZone) (selectedDate : Int) (works : List WorkSession) : List WorkSession :=
  works.filter (onDay tz selectedDate)

/-- The list `todayWorks` of `loadActiveWorks`: `today` is `new Date()` with the time zeroed. -/
def todayWorks (tz : TimeZone) (now : Int) (works : List WorkSession) : List WorkSession :=
  let today := tz.startOfDay now
  works.filter (onDay tz today)

/-! ## Hourly timeline (admin.js, `updateTimeTable`) -/

namespace Admin

/-- The effective end of a session: `work.endTime ? new Date(work.endTime) : new Date()`. -/
def effectiveEnd (now : Int) (work : WorkSession) : JsDate :=
  match work.endTime with
  | some e => e
  | none => some now

/-- The filter callback of `hourWorks` (admin.js 173-182). -/
def inHour (tz : TimeZone) (now : Int) (employee : Employee) (hour : Int)
    (work : WorkSession) : Bool :=
  let startTime := work.startTime
  let endTime := effectiveEnd now work
  let workStartHour := JsDate.getHours tz startTime
  let workEndHour := JsDate.getHours tz endTime
  decide (work.employeeId = employee.id) &&
    (JsNum.strictEq workStartHour (some hour) || JsNum.strictEq workEndHour (some hour) ||
      (JsNum.lt workStartHour (some hour) && JsNum.lt (some hour) workEndHour))

/-- The sessions of one employee drawn in one hour slot: `allWorks.filter(...)`. -/
def hourWorks (tz : TimeZone) (now : Int) (allWorks : List WorkSession) (employee : Employee)
    (hour : Int) : List WorkSession :=
  allWorks.filter (inHour tz now employee hour)

/-- Position and width of a bar within its hour cell, `(leftPercent, widthPercent)`
(admin.js 186-205). -/
def barGeometry (tz : TimeZone) (now : Int) (hour : Int) (work : WorkSession) : JsNum × JsNum :=
  let startTime := work.startTime
  let endTime := effectiveEnd now work
  let leftPercent : JsNum := JsNum.fin 0
  let widthPercent : JsNum := JsNum.fin 100
  let (leftPercent, widthPercent) :=
    if JsNum.strictEq (JsDate.getHours tz startTime) (some hour) then
      let l := JsNum.mul (JsNum.div (JsDate.getMinutes tz startTime) (JsNum.fin 60)) (JsNum.fin 100)
      (l, JsNum.sub (JsNum.fin 100) l)
    else (leftPercent, widthPercent)
  let widthPercent :=
    if JsNum.strictEq (JsDate.getHours tz endTime) (some hour) then
      JsNum.mul (JsNum.div (JsDate.getMinutes tz endTime) (JsNum.fin 60)) (JsNum.fin 100)
    else widthPercent
  if JsNum.strictEq (JsDate.getHours tz startTime) (some hour)
      && JsNum.strictEq (JsDate.getHours tz endTime) (some hour) then
    (JsNum.mul (JsNum.div (JsDate.getMinutes tz startTime) (JsNum.fin 60)) (JsNum.fin 100),
     JsNum.mul (JsNum.div (JsNum.sub (JsDate.getMinutes tz endTime)
       (JsDate.getMinutes tz startTime)) (JsNum.fin 60)) (JsNum.fin 100))
  else (leftPercent, widthPercent)

/-- A bar of the timeline: its class name and its `left` and `width` in percent of the cell
(the tooltip text is not modelled). -/
structure Bar where
  className : String
  left : JsNum
  width : JsNum
  deriving DecidableEq, Repr

/-- The bar element built for one session in one slot (admin.js 207-210). -/
def workBar (tz : TimeZone) (now : Int) (hour : Int) (work : WorkSession) : Bar :=
  let g := barGeometry tz now hour work
  { className := "work-bar " ++ work.workType ++ " " ++ work.status, left := g.1, width := g.2 }

/-- The hour slots of the display window: `for (let hour = 9; hour <= 18; hour++)`. -/
def hourSlots : List Int := [9, 10, 11, 12, 13, 14, 15, 16, 17, 18]

/-- A row of the timeline: the name cell and one cell of bars per hour slot. -/
structure TimeRow where
  name : String
  cells : List (List Bar)
  deriving DecidableEq, Repr

/-- The table body built by `updateTimeTable`: one row per employee of the roster.  The clock
is read once per render (`now`). -/
def updateTimeTable (tz : TimeZone) (now : Int) (allEmployees : List Employee)
    (allWorks : List WorkSession) : List TimeRow :=
  allEmployees.map fun employee =>
    { name := employee.name,
      cells := hourSlots.map fun hour =>
        (hourWorks tz now allWorks employee hour).map (workBar tz now hour) }

/-! ## Durations (admin.js, `parseDuration`, `formatDuration`) -/

/-- Method `String.prototype.split` with a one-character separator, on the characters of the
string: the separator never appears in a part, and an empty string gives one empty part. -/
def split (sep : Char) : List Char → List (List Char)
  | [] => [[]]
  | c :: cs =>
    if c = sep then [] :: split sep cs
    else
      match split sep cs with
      | p :: ps => (c :: p) :: ps
      | [] => [[c]]

/-- The characters `parseInt` skips at the start: white space and line terminators. -/
def isStrWhiteSpace (c : Char) : Bool :=
  c.toNat ∈ [0x09, 0x0A, 0x0B, 0x0C, 0x0D, 0x20, 0xA0, 0x1680, 0x2000, 0x2001, 0x2002, 0x2003,
    0x2004, 0x2005, 0x2006, 0x2007, 0x2008, 0x2009, 0x200A, 0x2028, 0x2029, 0x202F, 0x205F,
    0x3000, 0xFEFF]

/-- Value of a character as a digit in some radix up to 36. -/
def digitValue (c : Char) : Option Nat :=
  if 48 ≤ c.toNat ∧ c.toNat ≤ 57 then some (c.toNat - 48)
  else if 97 ≤ c.toNat ∧ c.toNat ≤ 122 then some (c.toNat - 87)
  else if 65 ≤ c.toNat ∧ c.toNat ≤ 90 then some (c.toNat - 55)
  else none

/-- Is the character a digit of the given radix? -/
def isRadixDigit (radix : Nat) (c : Char) : Bool :=
  match digitValue c with
  | some v => decide (v < radix)
  | none => false

/-- Value of a sequence of digits in the given radix. -/
def radixValue (radix : Nat) (cs : List Char) : Nat :=
  cs.foldl (fun acc c => radix * acc + (digitValue c).getD 0) 0

/-- The global function `parseInt(string)` without a radix argument: skip leading white space,
read an optional sign, read `0x`/`0X` as the hexadecimal marker, then take the longest run of
digits; `NaN` when that run is empty.  The number denoted by the digits is rounded to binary64
(every digit counts, also beyond the twentieth). -/
def parseInt (s : List Char) : JsNum :=
  let s := s.dropWhile isStrWhiteSpace
  let (negative, s) :=
    match s with
    | '-' :: r => (true, r)
    | '+' :: r => (false, r)
    | _ => (false, s)
  let (radix, s) :=
    match s with
    | '0' :: 'x' :: r => (16, r)
    | '0' :: 'X' :: r => (16, r)
    | _ => (10, s)
  let z := s.takeWhile (isRadixDigit radix)
  if z.isEmpty then JsNum.nan
  else if negative then JsNum.neg (JsNum.toDouble (radixValue radix z : ℚ))
  else JsNum.toDouble (radixValue radix z : ℚ)

/-- Helper `parseDuration` (admin.js 324-334): minutes of a duration string. -/
def parseDuration (duration : String) : JsNum :=
  let parts := split ':' duration.toList
  match parts with
  | [p0, p1, _] =>
    -- Format: HH:MM:SS
    JsNum.add (JsNum.mul (parseInt p0) (JsNum.fin 60)) (parseInt p1)
  | [p0, _] =>
    -- Format: MM:SS
    parseInt p0
  | _ => JsNum.fin 0

/-- Helper `formatDuration` (admin.js 337-341): minutes as text. -/
def formatDuration (minutes : JsNum) : String :=
  let hours := JsNum.floor (JsNum.div minutes (JsNum.fin 60))
  let mins := JsNum.floor (JsNum.rem minutes (JsNum.fin 60))
  if JsInt.gt hours 0 then JsInt.render hours ++ "s " ++ JsInt.render mins ++ "dk"
  else JsInt.render mins ++ "dk"

/-! ## Statistics (admin.js, `updateStatistics`) -/

/-- The four texts of the statistics panel. -/
structure StatsPanel where
  totalWorks : Nat
  completedWorks : Nat
  activeWorks : Nat
  avgWorkTime : String
  deriving DecidableEq, Repr

/-- The sessions the average is taken over: completed, with a truthy `duration` field. -/
def completedWorksWithDuration (allWorks : List WorkSession) : List WorkSession :=
  allWorks.filter fun work => decide (work.status = "completed") && truthy work.duration

/-- The `reduce` of `updateStatistics`: the summed minutes. -/
def totalMinutes (works : List WorkSession) : JsNum :=
  works.foldl (fun acc work => JsNum.add acc (parseDuration (work.duration.getD "")))
    (JsNum.fin 0)

/-- The statistics panel computed by `updateStatistics` from the day bucket. -/
def updateStatistics (allWorks : List WorkSession) : StatsPanel :=
  let totalWorks := allWorks.length
  let completedWorks := (allWorks.filter fun work => decide (work.status = "completed")).length
  let activeWorks := (allWorks.filter fun work => decide (work.status = "in_progress")).length
  let withDuration := completedWorksWithDuration allWorks
  let avgWorkTime :=
    if withDuration.length > 0 then
      formatDuration
        (JsNum.div (totalMinutes withDuration) (JsNum.fin (withDuration.length : ℚ)))
    else "-"
  { totalWorks := totalWorks, completedWorks := completedWorks, activeWorks := activeWorks,
    avgWorkTime := avgWorkTime }

end Admin

/-! ## Effects: dialogs and network calls -/

/-- The body of a request, before `JSON.stringify`. -/
inductive Body where
  | empty
  | completion (endTime : Int) (videoLink : Option String)
  deriving DecidableEq, Repr

/-- What a handler does to the outside world, in order. -/
inductive Effect where
  | fetch (method url : String) (body : Body)
  | confirm (message : String)
  | alert (message : String)
  | consoleError
  deriving DecidableEq, Repr

/-- Is the effect a network call? -/
def Effect.isFetch : Effect → Bool
  | Effect.fetch _ _ _ => true
  | _ => false

/-- The number of network calls in a trace. -/
def networkCalls (trace : List Effect) : Nat := (trace.filter Effect.isFetch).length

namespace Admin

/-! ## The admin page: view state, status filter, reloads, deletion -/

/-- The answer of `GET /api/work-stats/{id}`. -/
structure EmployeeStats where
  averageVideoDuration : Option String
  averageSoftwareDuration : Option String
  totalWorks : Nat
  deriving DecidableEq, Repr

/-- A row of the roster table. -/
structure EmployeeRow where
  name : String
  averageVideoDuration : String
  averageSoftwareDuration : String
  totalWorks : Nat
  deleteId : String
  deriving DecidableEq, Repr

/-- The body of the work list: the "no record for this day" row, or one row per session. -/
inductive WorksTable where
  | noRecords (selectedDate : Int)
  | rows (works : List WorkSession)
  deriving DecidableEq, Repr

/-- The variables of the admin closure (admin.js 2-5) and the regions of the page it writes. -/
structure State where
  allWorks : List WorkSession
  allEmployees : List Employee
  currentFilter : String
  selectedDate : Int
  employeesTable : List EmployeeRow
  timeTable : List TimeRow
  statsPanel : StatsPanel
  worksTable : WorksTable
  activeFilterButton : Option String
  deriving DecidableEq, Repr

/-- What the backend answers during one handler run; `none` is a rejected `fetch` (or a body
that is not JSON), for `deleteEmployee` the boolean is `response.ok`. -/
structure Backend where
  employees : Option (List Employee)
  workStats : String → Option EmployeeStats
  works : Option (List WorkSession)
  deleteEmployee : String → Option Bool

/-- Function `displayWorks` (admin.js 285-321). -/
def displayWorks (selectedDate : Int) (works : List WorkSession) : WorksTable :=
  if works.length = 0 then WorksTable.noRecords selectedDate
  else WorksTable.rows works

/-- The filter buttons of the page (admin.js 344-346). -/
def filterButtons : List String := ["filterAll", "filterActive", "filterCompleted"]

/-- The element id computed at admin.js 281: the text `filter` followed by
`filter.charAt(0).toUpperCase() + filter.slice(1)` (upper-casing of the ASCII letters). -/
def filterButtonId (filter : String) : String := "filter" ++ filter.capitalize

/-- Function `filterWorks` (admin.js 265-282).  The boolean is `false` when the last line throws
because no button carries the computed id; the assignments before it have happened. -/
def filterWorks (filter : String) (st : State) : State × Bool :=
  let st := { st with currentFilter := filter }
  let filteredWorks :=
    if filter = "active" then
      st.allWorks.filter fun work => decide (work.status = "in_progress")
    else if filter = "completed" then
      st.allWorks.filter fun work => decide (work.status = "completed")
    else st.allWorks
  let st := { st with worksTable := displayWorks st.selectedDate filteredWorks }
  let st := { st with activeFilterButton := none }
  if filterButtonId filter ∈ filterButtons then
    ({ st with activeFilterButton := some (filterButtonId filter) }, true)
  else (st, false)

/-- Function `loadWorks` (admin.js 134-152). -/
def loadWorks (tz : TimeZone) (now : Int) (be : Backend) (st : State) : State × List Effect :=
  let request := Effect.fetch "GET" "/api/works" Body.empty
  match be.works with
  | none => (st, [request, Effect.consoleError])
  | some works =>
    let st := { st with allWorks := dayBucket tz st.selectedDate works }
    let st := { st with statsPanel := updateStatistics st.allWorks }
    let st := { st with timeTable := updateTimeTable tz now st.allEmployees st.allWorks }
    match filterWorks st.currentFilter st with
    | (st, true) => (st, [request])
    | (st, false) => (st, [request, Effect.consoleError])

/-- The roster row of one employee (admin.js 58-67). -/
def employeeRow (employee : Employee) (stats : EmployeeStats) : EmployeeRow :=
  { name := employee.name,
    averageVideoDuration :=
      if truthy stats.averageVideoDuration then stats.averageVideoDuration.getD "" else "-",
    averageSoftwareDuration :=
      if truthy stats.averageSoftwareDuration then stats.averageSoftwareDuration.getD "" else "-",
    totalWorks := stats.totalWorks,
    deleteId := employee.id }

/-- The loop of `loadEmployees` (admin.js 54-69): the rows appended, the requests issued, and
whether the loop ran to its end (`false`: a request failed and the loop was left). -/
def statsRows (workStats : String → Option EmployeeStats) :
    List Employee → List EmployeeRow × List Effect × Bool
  | [] => ([], [], true)
  | employee :: rest =>
    let request := Effect.fetch "GET" ("/api/work-stats/" ++ employee.id) Body.empty
    match workStats employee.id with
    | none => ([], [request], false)
    | some stats =>
      let (rows, trace, done) := statsRows workStats rest
      (employeeRow employee stats :: rows, request :: trace, done)

/-- Function `loadEmployees` (admin.js 46-76). -/
def loadEmployees (tz : TimeZone) (now : Int) (be : Backend) (st : State) :
    State × List Effect :=
  let request := Effect.fetch "GET" "/api/employees" Body.empty
  match be.employees with
  | none => (st, [request, Effect.consoleError])
  | some employees =>
    let (rows, trace, done) := statsRows be.workStats employees
    let st := { st with allEmployees := employees, employeesTable := rows }
    if done then
      let (st, worksTrace) := loadWorks tz now be st
      (st, request :: trace ++ worksTrace)
    else (st, request :: trace ++ [Effect.consoleError])

/-- Function `window.deleteEmployee` (admin.js 111-131); `confirmed` is what `confirm` returns. -/
def deleteEmployee (tz : TimeZone) (now : Int) (be : Backend) (confirmed : Bool)
    (employeeId : String) (st : State) : State × List Effect :=
  let question := Effect.confirm "Bu personeli silmek istediğinize emin misiniz?"
  if !confirmed then (st, [question])
  else
    let request := Effect.fetch "DELETE" ("/api/employees/" ++ employeeId) Body.empty
    match be.deleteEmployee employeeId with
    | some true =>
      let (st, trace) := loadEmployees tz now be st
      (st, question :: request :: trace ++ [Effect.alert "Personel başarıyla silindi!"])
    | _ =>
      (st, [question, request, Effect.consoleError,
        Effect.alert "Personel silinirken bir hata oluştu!"])

end Admin

namespace Console

/-! ## The employee page: completing a session -/

/-- The part of the employee page the completion dialog uses. -/
structure State where
  completeWorkId : String
  videoLinkFieldDisplay : String
  videoLinkRequired : Bool
  videoLink : String
  modalShown : Bool
  deriving DecidableEq, Repr

/-- Function `completeWork` (employee.js 158-174). -/
def completeWork (workId workType : String) (st : State) : State :=
  let st := { st with completeWorkId := workId }
  let st :=
    if workType = "video" then
      { st with videoLinkFieldDisplay := "block", videoLinkRequired := true }
    else
      { st with videoLinkFieldDisplay := "none", videoLinkRequired := false }
  { st with modalShown := true }

/-- The user edits the video-link input. -/
def typeVideoLink (text : String) (st : State) : State := { st with videoLink := text }

/-- The click handler of `saveComplete` (employee.js 177-211).  `response` is the outcome of the
`PUT`: `none` for a rejected `fetch`, otherwise `response.ok`.  After a successful answer the
handler hides the dialog, clears the input and calls `loadActiveWorks`, a function declared
inside the `DOMContentLoaded` callback (employee.js 99) and so not in scope here: the call
throws, and the `catch` block logs and shows the failure notice. -/
def saveComplete (now : Int) (response : Option Bool) (st : State) : State × List Effect :=
  let workId := st.completeWorkId
  let videoLink := st.videoLink
  if st.videoLinkFieldDisplay = "block" && videoLink = "" then
    (st, [Effect.alert "Lütfen video linkini girin!"])
  else
    let request := Effect.fetch "PUT" ("/api/work/" ++ workId)
      (Body.completion now (if videoLink = "" then none else some videoLink))
    match response with
    | some true =>
      ({ st with modalShown := false, videoLink := "" },
        [request, Effect.consoleError, Effect.alert "İş tamamlanırken bir hata oluştu!"])
    | _ => (st, [request, Effect.consoleError, Effect.alert "İş tamamlanırken bir hata oluştu!"])

end Console

/-! ## Sample data -/

/-- The instant `hour:minute` of 1 January 1970, UTC. -/
def clock (hour minute : Int) : Int := hour * msPerHour + minute * msPerMinute

/-- A completed video session of employee `e1` with the given start and end instants. -/
def sampleSession (startTime endTime : Int) : WorkSession :=
  { id := "w1", employeeId := "e1", employeeName := "Ada", workType := "video",
    startTime := some startTime, endTime := some (some endTime), status := "completed",
    duration := some "0:30:00", videoLink := none }

/-! ## Duration strings, as the specification describes them -/

/-- A decimal component of a duration: a non-empty string of the digits `0` to `9`. -/
def isDecimal (s : String) : Bool :=
  !s.toList.isEmpty && s.toList.all fun c => decide (48 ≤ c.toNat ∧ c.toNat ≤ 57)

/-- The number a decimal component denotes. -/
def decimalValue (s : String) : Nat :=
  s.toList.foldl (fun n c => 10 * n + (c.toNat - 48)) 0

/-- The sum of a list of JavaScript numbers, added up from zero in list order. -/
def sumMinutes (xs : List JsNum) : JsNum := xs.foldl JsNum.add (JsNum.fin 0)

/-- A parseable duration: `H:MM:SS` or `MM:SS`, every component decimal. -/
def isParseable (duration : String) : Bool :=
  match (Admin.split ':' duration.toList).map String.mk with
  | [h, m, s] => isDecimal h && isDecimal m && isDecimal s
  | [m, s] => isDecimal m && isDecimal s
  | _ => false

/-- The average as the specification words it: taken over the completed sessions with a
parseable duration only, the dash when there is none. -/
def averageOverParseable (bucket : List WorkSession) : String :=
  let parseable := bucket.filter fun work =>
    decide (work.status = "completed") && isParseable (work.duration.getD "")
  if parseable.length > 0 then
    Admin.formatDuration
      (JsNum.div (Admin.totalMinutes parseable) (JsNum.fin (parseable.length : ℚ)))
  else "-"

/-- A session of employee `e1` with the given status and duration field. -/
def sampleWork (status : String) (duration : Option String) : WorkSession :=
  { id := "w1", employeeId := "e1", employeeName := "Ada", workType := "software",
    startTime := some (clock 9 0), endTime := some (some (clock 10 0)), status := status,
    duration := duration, videoLink := none }

/-- A day bucket with a completed session of one hour and a completed session whose duration
field is the text `abc`. -/
def bucketWithBadDuration : List WorkSession :=
  [sampleWork "completed" (some "1:00:00"), sampleWork "completed" (some "abc")]

/-- The sessions listed in the work table, top to bottom. -/
def shownWorks : Admin.WorksTable → List WorkSession
  | Admin.WorksTable.noRecords _ => []
  | Admin.WorksTable.rows works => works

/-- A session with the given id and status. -/
def sessionWithStatus (id status : String) : WorkSession :=
  { id := id, employeeId := "e1", employeeName := "Ada", workType := "software",
    startTime := some (clock 9 0), endTime := none, status := status,
    duration := none, videoLink := none }

/-- A day bucket of five sessions: three completed, two in progress. -/
def bucketOfFive : List WorkSession :=
  [sessionWithStatus "w1" "completed", sessionWithStatus "w2" "in_progress",
   sessionWithStatus "w3" "completed", sessionWithStatus "w4" "in_progress",
   sessionWithStatus "w5" "completed"]

/-- An admin view state holding the given day bucket, nothing rendered yet. -/
def stateWithBucket (bucket : List WorkSession) : Admin.State :=
  { allWorks := bucket, allEmployees := [⟨"e1", "Ada"⟩], currentFilter := "all",
    selectedDate := 0, employeesTable := [], timeTable := [],
    statsPanel := Admin.updateStatistics bucket, worksTable := Admin.WorksTable.noRecords 0,
    activeFilterButton := none }

/-- The completion dialog of a freshly loaded employee page: closed, nothing typed. -/
def freshConsole : Console.State :=
  { completeWorkId := "", videoLinkFieldDisplay := "none", videoLinkRequired := false,
    videoLink := "", modalShown := false }

/-- The page after this history: the dialog is opened for the video session `w1`, a link is
typed, the save is answered with an error status (the input keeps the link), and the dialog is
opened again for the software session `w7`. -/
def staleLinkState : Console.State :=
  Console.completeWork "w7" "software"
    (Console.saveComplete 1000 (some false)
      (Console.typeVideoLink "https://example.com/v"
        (Console.completeWork "w1" "video" freshConsole))).1

/-- All bars of a timeline row, slot by slot. -/
def rowBars (row : Admin.TimeRow) : List Admin.Bar :=
  row.cells.foldr (fun cell rest => cell ++ rest) []

/-- All bars of a timeline, row by row. -/
def tableBars (table : List Admin.TimeRow) : List Admin.Bar :=
  table.foldr (fun row rest => rowBars row ++ rest) []

/-- The minutes a bar stands for, as a real number: its width in percent of an hour cell,
`width/100 * 60` (zero for a width that is not a finite number). -/
def barMinutes (bar : Admin.Bar) : ℚ :=
  match bar.width with
  | JsNum.fin w => w / 100 * 60
  | _ => 0

/-- The minutes of a session running from `sh:sm` to `eh:em` that fall into the hour slot `h`:
the length of the overlap of the session with the hour. -/
def slotMinutes (sh sm eh em h : Int) : Int :=
  max 0 (min (eh * 60 + em) ((h + 1) * 60) - max (sh * 60 + sm) (h * 60))

/-! ## The timeline, as the specification describes it -/

/-- Specification: the start hour of a session with a valid start timestamp. -/
def specStartHour (tz : TimeZone) (s : WorkSession) : Option Int :=
  match s.startTime with
  | some t => some (tz.hours t : Int)
  | none => none

/-- Specification: the effective end hour of a session: the hour of its end timestamp if
present, otherwise the hour of now. -/
def specEndHour (tz : TimeZone) (now : Int) (s : WorkSession) : Option Int :=
  match s.endTime with
  | some (some t) => some (tz.hours t : Int)
  | some none => none
  | none => some (tz.hours now : Int)

/-- Specification: the start minute of a session (zero without a valid start). -/
def specStartMinute (tz : TimeZone) (s : WorkSession) : ℚ :=
  match s.startTime with
  | some t => (tz.minutes t : ℚ)
  | none => 0

/-- Specification: the effective end minute of a session. -/
def specEndMinute (tz : TimeZone) (now : Int) (s : WorkSession) : ℚ :=
  match s.endTime with
  | some (some t) => (tz.minutes t : ℚ)
  | some none => 0
  | none => (tz.minutes now : ℚ)

/-- Specification: a session gets a bar in slot `h` of an employee when it is the employee's and
its start hour is `h`, or its effective end hour is `h`, or `h` lies strictly between them. -/
def specSelected (tz : TimeZone) (now : Int) (employee : Employee) (h : Int)
    (s : WorkSession) : Bool :=
  decide (s.employeeId = employee.id) &&
    (decide (specStartHour tz s = some h) || decide (specEndHour tz now s = some h) ||
      match specStartHour tz s, specEndHour tz now s with
      | some sh, some eh => decide (sh < h ∧ h < eh)
      | _, _ => false)

/-- Specification: the bar geometry `(left%, width%)` in slot `h`, in exact arithmetic. -/
def specGeometry (tz : TimeZone) (now : Int) (h : Int) (s : WorkSession) : ℚ × ℚ :=
  if specStartHour tz s = some h ∧ specEndHour tz now s = some h then
    (100 * specStartMinute tz s / 60, 100 * (specEndMinute tz now s - specStartMinute tz s) / 60)
  else if specStartHour tz s = some h then
    (100 * specStartMinute tz s / 60, 100 - 100 * specStartMinute tz s / 60)
  else if specEndHour tz now s = some h then
    (0, 100 * specEndMinute tz now s / 60)
  else (0, 100)


/-- A day bucket with two completed sessions, of one hour and of three hours. -/
def bucketTwoCompleted : List WorkSession :=
  [sampleWork "completed" (some "1:00:00"), sampleWork "completed" (some "3:00:00")]

/-! ## Theorems -/

namespace JsNum

theorem roundHalfEven_intCast (n : Int) : roundHalfEven (n : ℚ) = n := by
  simp [roundHalfEven]

theorem roundHalfEven_of_near (q : ℚ) (m : Int) (h : |q - m| < 1 / 2) :
    roundHalfEven q = m := by
  rw [abs_lt] at h
  obtain ⟨h1, h2⟩ := h
  by_cases hm : (m : ℚ) ≤ q
  · have hf : ⌊q⌋ = m := by
      rw [Int.floor_eq_iff]
      constructor <;> linarith
    unfold roundHalfEven
    rw [hf, if_pos (by linarith)]
  · have hf : ⌊q⌋ = m - 1 := by
      rw [Int.floor_eq_iff]
      push_cast
      constructor <;> linarith
    unfold roundHalfEven
    rw [hf]
    push_cast
    rw [if_neg (by linarith), if_pos (by linarith)]
    ring

theorem roundHalfEven_tie_even (m : Int) (hm : m % 2 = 0) :
    roundHalfEven ((m : ℚ) + 1 / 2) = m := by
  have hf : ⌊(m : ℚ) + 1 / 2⌋ = m := by
    rw [Int.floor_eq_iff]
    constructor <;> linarith
  unfold roundHalfEven
  rw [hf, if_neg (by linarith), if_neg (by linarith), if_pos hm]

theorem abs_roundHalfEven_sub_le (q : ℚ) : |(roundHalfEven q : ℚ) - q| ≤ 1 / 2 := by
  have h1 := Int.floor_le q
  have h2 := Int.lt_floor_add_one q
  unfold roundHalfEven
  rw [abs_le]
  split_ifs <;> push_cast <;> constructor <;> linarith

theorem roundHalfEven_nonneg (q : ℚ) (hq : 0 ≤ q) : 0 ≤ roundHalfEven q := by
  have h1 : 0 ≤ ⌊q⌋ := Int.floor_nonneg.2 hq
  unfold roundHalfEven
  split_ifs <;> omega

theorem two_zpow_pos (e : Int) : (0 : ℚ) < 2 ^ e := zpow_pos (by norm_num) e

theorem ulpExponent_le (q : ℚ) (c : Int) (hq : q ≠ 0) (hc : -1022 ≤ c)
    (h : |q| < 2 ^ (c + 1)) : ulpExponent q ≤ c - 52 := by
  have hpos : 0 < |q| := abs_pos.2 hq
  have hlog : Int.log 2 |q| < c + 1 := by
    have := (Int.lt_zpow_iff_log_lt (R := ℚ) (b := 2) (by norm_num) (x := c + 1) hpos).1
    exact this (by exact_mod_cast h)
  unfold ulpExponent
  omega

theorem ulpExponent_eq (q : ℚ) (c : Int) (hc : -1022 ≤ c) (h1 : 2 ^ c ≤ |q|)
    (h2 : |q| < 2 ^ (c + 1)) : ulpExponent q = c - 52 := by
  have hpos : 0 < |q| := lt_of_lt_of_le (two_zpow_pos c) h1
  have hlog : Int.log 2 |q| < c + 1 := by
    have := (Int.lt_zpow_iff_log_lt (R := ℚ) (b := 2) (by norm_num) (x := c + 1) hpos).1
    exact this (by exact_mod_cast h2)
  have hlog2 : c ≤ Int.log 2 |q| := by
    have := (Int.zpow_le_iff_le_log (R := ℚ) (b := 2) (by norm_num) (x := c) hpos).1
    exact this (by exact_mod_cast h1)
  unfold ulpExponent
  omega


theorem toDouble_zero : toDouble 0 = fin 0 := by
  unfold toDouble
  norm_num [roundHalfEven, maxDouble]

theorem toDouble_dyadic (m e : Int) (hm : |(m : ℚ)| < 2 ^ 53) (he : -1074 ≤ e)
    (hmax : |(m : ℚ) * 2 ^ e| ≤ maxDouble) :
    toDouble ((m : ℚ) * 2 ^ e) = fin ((m : ℚ) * 2 ^ e) := by
  by_cases h0 : (m : ℚ) * 2 ^ e = 0
  · rw [h0]
    exact toDouble_zero
  have hle : ulpExponent ((m : ℚ) * 2 ^ e) ≤ e := by
    have hlt : |(m : ℚ) * 2 ^ e| < 2 ^ (e + 52 + 1) := by
      rw [abs_mul, abs_of_pos (two_zpow_pos e)]
      have : (2 : ℚ) ^ (e + 52 + 1) = 2 ^ 53 * 2 ^ e := by
        rw [show e + 52 + 1 = (53 : Int) + e by ring, zpow_add₀ (by norm_num)]
        norm_num
      rw [this]
      exact mul_lt_mul_of_pos_right hm (two_zpow_pos e)
    by_cases hc : -1022 ≤ e + 52
    · have := ulpExponent_le _ (e + 52) h0 hc hlt
      omega
    · have hpos : 0 < |(m : ℚ) * 2 ^ e| := abs_pos.2 h0
      have hlog : Int.log 2 |(m : ℚ) * 2 ^ e| < e + 52 + 1 := by
        have := (Int.lt_zpow_iff_log_lt (R := ℚ) (b := 2) (by norm_num) (x := e + 52 + 1) hpos).1
        exact this (by exact_mod_cast hlt)
      unfold ulpExponent
      omega
  obtain ⟨n, hn⟩ := Int.eq_ofNat_of_zero_le (sub_nonneg.2 hle)
  have hz : (m : ℚ) * 2 ^ e / 2 ^ ulpExponent ((m : ℚ) * 2 ^ e) = ((m * 2 ^ n : Int) : ℚ) := by
    rw [mul_div_assoc, ← zpow_sub₀ (by norm_num : (2 : ℚ) ≠ 0), hn]
    push_cast
    rw [zpow_natCast]
  have hr : ((roundHalfEven ((m : ℚ) * 2 ^ e / 2 ^ ulpExponent ((m : ℚ) * 2 ^ e)) : Int) : ℚ)
      * 2 ^ ulpExponent ((m : ℚ) * 2 ^ e) = (m : ℚ) * 2 ^ e := by
    rw [hz, roundHalfEven_intCast, ← hz]
    field_simp
  unfold toDouble
  rw [hr, if_neg (not_lt.2 hmax)]

theorem toDouble_int (n : Int) (hn : |(n : ℚ)| ≤ 2 ^ 53) : toDouble (n : ℚ) = fin (n : ℚ) := by
  by_cases h : |(n : ℚ)| < 2 ^ 53
  · have := toDouble_dyadic n 0 h (by norm_num) (by
      rw [zpow_zero, mul_one]
      refine le_trans hn ?_
      norm_num [maxDouble])
    simpa using this
  · have he : |(n : ℚ)| = 2 ^ 53 := le_antisymm hn (not_lt.1 h)
    have hcases : (n : ℚ) = 2 ^ 53 ∨ (n : ℚ) = -2 ^ 53 := by
      rcases abs_cases (n : ℚ) with ⟨h1, _⟩ | ⟨h1, _⟩
      · left
        rw [← h1, he]
      · right
        rw [← he, h1]
        ring
    rcases hcases with h1 | h1
    · have := toDouble_dyadic (2 ^ 52) 1 (by norm_num) (by norm_num) (by norm_num [maxDouble])
      rw [h1]
      norm_num at this ⊢
      exact this
    · have := toDouble_dyadic (-2 ^ 52) 1 (by norm_num) (by norm_num) (by norm_num [maxDouble])
      rw [h1]
      norm_num at this ⊢
      exact this

theorem toDouble_near (q : ℚ) (c : Int) (hc1 : -1022 ≤ c) (hc2 : c ≤ 1022)
    (hq : |q| < 2 ^ (c + 1)) :
    ∃ r, toDouble q = fin r ∧ |r - q| ≤ 2 ^ (c - 53) ∧ (0 ≤ q → 0 ≤ r) := by
  by_cases h0 : q = 0
  · refine ⟨0, ?_, ?_, fun _ => le_refl _⟩
    · rw [h0]
      exact toDouble_zero
    · rw [h0]
      simpa using (two_zpow_pos (c - 53)).le
  have hle := ulpExponent_le q c h0 hc1 hq
  have hb := abs_roundHalfEven_sub_le (q / 2 ^ ulpExponent q)
  have herr : |(roundHalfEven (q / 2 ^ ulpExponent q) : ℚ) * 2 ^ ulpExponent q - q|
      ≤ 2 ^ (c - 53) := by
    have e1 : (roundHalfEven (q / 2 ^ ulpExponent q) : ℚ) * 2 ^ ulpExponent q - q
        = ((roundHalfEven (q / 2 ^ ulpExponent q) : ℚ) - q / 2 ^ ulpExponent q)
          * 2 ^ ulpExponent q := by
      field_simp
    rw [e1, abs_mul, abs_of_pos (two_zpow_pos _)]
    have e2 : (2 : ℚ) ^ (c - 53) = 1 / 2 * 2 ^ (c - 52) := by
      rw [show c - 53 = (-1 : Int) + (c - 52) by ring, zpow_add₀ (by norm_num)]
      norm_num
    rw [e2]
    have e3 : (2 : ℚ) ^ ulpExponent q ≤ 2 ^ (c - 52) :=
      zpow_le_zpow_right₀ (by norm_num) hle
    exact mul_le_mul hb e3 (two_zpow_pos _).le (by norm_num)
  have hbig : (2 : ℚ) ^ (c + 1) + 2 ^ (c - 53) ≤ maxDouble := by
    have e1 : (2 : ℚ) ^ (c + 1) ≤ 2 ^ (1023 : Int) :=
      zpow_le_zpow_right₀ (by norm_num) (by omega)
    have e2 : (2 : ℚ) ^ (c - 53) ≤ 2 ^ (969 : Int) :=
      zpow_le_zpow_right₀ (by norm_num) (by omega)
    have e3 : (2 : ℚ) ^ (1023 : Int) + 2 ^ (969 : Int) ≤ maxDouble := by
      norm_num [maxDouble]
    linarith
  have hfin : ¬ maxDouble
      < |(roundHalfEven (q / 2 ^ ulpExponent q) : ℚ) * 2 ^ ulpExponent q| := by
    rw [not_lt]
    have := abs_sub_abs_le_abs_sub
      ((roundHalfEven (q / 2 ^ ulpExponent q) : ℚ) * 2 ^ ulpExponent q) q
    linarith
  refine ⟨(roundHalfEven (q / 2 ^ ulpExponent q) : ℚ) * 2 ^ ulpExponent q, ?_, herr, ?_⟩
  · unfold toDouble
    rw [if_neg hfin]
  · intro hq0
    have : 0 ≤ roundHalfEven (q / 2 ^ ulpExponent q) :=
      roundHalfEven_nonneg _ (div_nonneg hq0 (two_zpow_pos _).le)
    exact mul_nonneg (by exact_mod_cast this) (two_zpow_pos _).le

theorem toDouble_eq (q : ℚ) (c m : Int) (hc : -1022 ≤ c) (h1 : 2 ^ c ≤ |q|)
    (h2 : |q| < 2 ^ (c + 1)) (hm : |q / 2 ^ (c - 52) - m| < 1 / 2)
    (hmax : |(m : ℚ) * 2 ^ (c - 52)| ≤ maxDouble) :
    toDouble q = fin ((m : ℚ) * 2 ^ (c - 52)) := by
  unfold toDouble
  rw [ulpExponent_eq q c hc h1 h2, roundHalfEven_of_near _ m hm, if_neg (not_lt.2 hmax)]

theorem toDouble_tie_even (q : ℚ) (c m : Int) (hc : -1022 ≤ c) (h1 : 2 ^ c ≤ |q|)
    (h2 : |q| < 2 ^ (c + 1)) (hm : q / 2 ^ (c - 52) = (m : ℚ) + 1 / 2) (heven : m % 2 = 0)
    (hmax : |(m : ℚ) * 2 ^ (c - 52)| ≤ maxDouble) :
    toDouble q = fin ((m : ℚ) * 2 ^ (c - 52)) := by
  unfold toDouble
  rw [ulpExponent_eq q c hc h1 h2, hm, roundHalfEven_tie_even m heven, if_neg (not_lt.2 hmax)]

end JsNum

theorem onDay_iff (tz : TimeZone) (day : Int) (w : WorkSession) :
    onDay tz day w = true ↔ ∃ t, w.startTime = some t ∧ tz.startOfDay t = day := by
  unfold onDay JsDate.setHoursZero JsDate.getTime JsNum.strictEq
  cases h : w.startTime <;> simp

/-- C1: the day bucket of `loadWorks` (and the today list of `loadActiveWorks`) is the
subsequence of the input, in input order, of exactly the sessions whose start instant, with the
local time of day zeroed, equals the selected day. -/
theorem dayBucket_spec (tz : TimeZone) (d : Int) (works : List WorkSession) :
    List.Sublist (dayBucket tz d works) works
    ∧ (∀ s, s ∈ dayBucket tz d works ↔
        s ∈ works ∧ ∃ t, s.startTime = some t ∧ tz.startOfDay t = d)
    ∧ (∀ now, List.Sublist (todayWorks tz now works) works
        ∧ ∀ s, s ∈ todayWorks tz now works ↔
          s ∈ works ∧ ∃ t, s.startTime = some t ∧ tz.startOfDay t = tz.startOfDay now) := by
  refine ⟨List.filter_sublist _, ?_, ?_⟩
  · intro s
    simp [dayBucket, List.mem_filter, onDay_iff]
  · intro now
    refine ⟨List.filter_sublist _, ?_⟩
    intro s
    simp [todayWorks, List.mem_filter, onDay_iff]

namespace Admin

theorem strictEq_some_iff {α : Type} [DecidableEq α] (a : Option α) (b : α) :
    JsNum.strictEq a (some b) = true ↔ a = some b := by
  cases a <;> simp [JsNum.strictEq]

theorem split_of_not_mem (sep : Char) (p : List Char) (hp : sep ∉ p) : split sep p = [p] := by
  induction p with
  | nil => rfl
  | cons c cs ih =>
    have hc : c ≠ sep := fun e => hp (by simp [e])
    have hcs : sep ∉ cs := fun e => hp (by simp [e])
    simp [split, hc, ih hcs]

theorem split_append (sep : Char) (p rest : List Char) (hp : sep ∉ p) :
    split sep (p ++ sep :: rest) = p :: split sep rest := by
  induction p with
  | nil => simp [split]
  | cons c cs ih =>
    have hc : c ≠ sep := fun e => hp (by simp [e])
    have hcs : sep ∉ cs := fun e => hp (by simp [e])
    simp [split, hc, ih hcs]

theorem isDecimal_iff (s : String) :
    isDecimal s = true ↔ s.toList ≠ [] ∧ ∀ c ∈ s.toList, 48 ≤ c.toNat ∧ c.toNat ≤ 57 := by
  simp [isDecimal, List.all_eq_true]

theorem radixValue_digits (cs : List Char) (hd : ∀ c ∈ cs, 48 ≤ c.toNat ∧ c.toNat ≤ 57)
    (acc : Nat) :
    cs.foldl (fun acc c => 10 * acc + (digitValue c).getD 0) acc
      = cs.foldl (fun n c => 10 * n + (c.toNat - 48)) acc := by
  induction cs generalizing acc with
  | nil => rfl
  | cons c cs ih =>
    have hc := hd c (by simp)
    have hv : digitValue c = some (c.toNat - 48) := by simp [digitValue, hc]
    simp only [List.foldl_cons, hv, Option.getD_some]
    exact ih (fun d hdm => hd d (by simp [hdm])) _

theorem takeWhile_digits (cs : List Char) (hd : ∀ c ∈ cs, 48 ≤ c.toNat ∧ c.toNat ≤ 57) :
    cs.takeWhile (isRadixDigit 10) = cs := by
  rw [List.takeWhile_eq_self_iff]
  intro c hc
  have h := hd c hc
  have hv : digitValue c = some (c.toNat - 48) := by simp [digitValue, h]
  simp only [isRadixDigit, hv, decide_eq_true_eq]
  omega

theorem parseInt_decimal (s : String) (hs : isDecimal s = true) :
    parseInt s.toList = JsNum.toDouble (decimalValue s : ℚ) := by
  obtain ⟨hne, hd⟩ := (isDecimal_iff s).1 hs
  unfold decimalValue
  generalize s.toList = cs at hne hd
  cases cs with
  | nil => exact absurd rfl hne
  | cons c rest =>
    have hc := hd c (by simp)
    have hws : isStrWhiteSpace c = false := by
      simp only [isStrWhiteSpace, decide_eq_false_iff_not, List.mem_cons, List.mem_singleton,
        List.not_mem_nil, or_false]
      omega
    have hminus : c ≠ '-' := by
      rintro rfl
      simp at hc
    have hplus : c ≠ '+' := by
      rintro rfl
      simp at hc
    have hx : ∀ r, rest ≠ 'x' :: r := by
      rintro r rfl
      have := hd 'x' (by simp)
      simp at this
    have hX : ∀ r, rest ≠ 'X' :: r := by
      rintro r rfl
      have := hd 'X' (by simp)
      simp at this
    have hsign : (match c :: rest with
        | '-' :: r => (true, r)
        | '+' :: r => (false, r)
        | _ => (false, c :: rest)) = (false, c :: rest) := by
      split
      · rename_i heq
        exact absurd (List.cons.inj heq).1 hminus
      · rename_i heq
        exact absurd (List.cons.inj heq).1 hplus
      · rfl
    have hradix : (match c :: rest with
        | '0' :: 'x' :: r => (16, r)
        | '0' :: 'X' :: r => (16, r)
        | _ => (10, c :: rest)) = (10, c :: rest) := by
      split
      · rename_i heq
        exact absurd (List.cons.inj heq).2 (hx _)
      · rename_i heq
        exact absurd (List.cons.inj heq).2 (hX _)
      · rfl
    unfold parseInt
    simp only [List.dropWhile_cons, hws, Bool.false_eq_true, if_false, hsign, hradix]
    rw [takeWhile_digits _ hd]
    simp only [List.isEmpty_cons, Bool.false_eq_true, if_false, radixValue]
    rw [radixValue_digits _ hd]

theorem colon_not_mem_decimal (s : String) (hs : isDecimal s = true) : ':' ∉ s.toList := by
  intro hmem
  have := ((isDecimal_iff s).1 hs).2 ':' hmem
  simp at this

theorem shownWorks_displayWorks (d : Int) (works : List WorkSession) :
    shownWorks (displayWorks d works) = works := by
  cases works <;> simp [displayWorks, shownWorks]

theorem filterWorks_fst (filter : String) (st : State) :
    (filterWorks filter st).1 =
      { st with
        currentFilter := filter,
        worksTable := displayWorks st.selectedDate
          (if filter = "active" then
            st.allWorks.filter fun work => decide (work.status = "in_progress")
          else if filter = "completed" then
            st.allWorks.filter fun work => decide (work.status = "completed")
          else st.allWorks),
        activeFilterButton :=
          if filterButtonId filter ∈ filterButtons then some (filterButtonId filter)
          else none } := by
  unfold filterWorks
  by_cases h : filterButtonId filter ∈ filterButtons <;> simp [h]

/-- C8: on every view state, `filterWorks` lists exactly the sessions of the day bucket with
status `in_progress` for `active`, exactly those with status `completed` for `completed`, and
the whole bucket for `all`, in input order; it changes the current filter and leaves the day
bucket, the statistics panel and the timeline as they were.  On a bucket of three completed and
two in-progress sessions `active` lists the two in-progress sessions in their original order. -/
theorem filterWorks_spec :
    (∀ st : State,
      shownWorks (filterWorks "active" st).1.worksTable
          = st.allWorks.filter (fun work => decide (work.status = "in_progress"))
      ∧ shownWorks (filterWorks "completed" st).1.worksTable
          = st.allWorks.filter (fun work => decide (work.status = "completed"))
      ∧ shownWorks (filterWorks "all" st).1.worksTable = st.allWorks
      ∧ (∀ s, s ∈ shownWorks (filterWorks "active" st).1.worksTable
          ↔ s ∈ st.allWorks ∧ s.status = "in_progress")
      ∧ (∀ s, s ∈ shownWorks (filterWorks "completed" st).1.worksTable
          ↔ s ∈ st.allWorks ∧ s.status = "completed")
      ∧ List.Sublist (shownWorks (filterWorks "active" st).1.worksTable) st.allWorks
      ∧ List.Sublist (shownWorks (filterWorks "completed" st).1.worksTable) st.allWorks)
    ∧ (∀ (filter : String) (st : State),
      (filterWorks filter st).1.currentFilter = filter
      ∧ (filterWorks filter st).1.allWorks = st.allWorks
      ∧ (filterWorks filter st).1.statsPanel = st.statsPanel
      ∧ (filterWorks filter st).1.timeTable = st.timeTable
      ∧ (filterWorks filter st).1.allEmployees = st.allEmployees
      ∧ (filterWorks filter st).1.selectedDate = st.selectedDate)
    ∧ shownWorks (filterWorks "active" (stateWithBucket bucketOfFive)).1.worksTable
        = [sessionWithStatus "w2" "in_progress", sessionWithStatus "w4" "in_progress"] := by
  have hact : ∀ st : State, shownWorks (filterWorks "active" st).1.worksTable
      = st.allWorks.filter (fun work => decide (work.status = "in_progress")) := by
    intro st
    rw [filterWorks_fst]
    simp [shownWorks_displayWorks]
  have hcomp : ∀ st : State, shownWorks (filterWorks "completed" st).1.worksTable
      = st.allWorks.filter (fun work => decide (work.status = "completed")) := by
    intro st
    rw [filterWorks_fst]
    have hne : ¬ ("completed" : String) = "active" := by decide
    simp [shownWorks_displayWorks, hne]
  have hall : ∀ st : State, shownWorks (filterWorks "all" st).1.worksTable = st.allWorks := by
    intro st
    rw [filterWorks_fst]
    have h1 : ¬ ("all" : String) = "active" := by decide
    have h2 : ¬ ("all" : String) = "completed" := by decide
    simp [shownWorks_displayWorks, h1, h2]
  refine ⟨fun st => ⟨hact st, hcomp st, hall st, ?_, ?_, ?_, ?_⟩, ?_, ?_⟩
  · intro s
    rw [hact st]
    simp [List.mem_filter]
  · intro s
    rw [hcomp st]
    simp [List.mem_filter]
  · rw [hact st]
    exact List.filter_sublist _
  · rw [hcomp st]
    exact List.filter_sublist _
  · intro filter st
    rw [filterWorks_fst]
    exact ⟨rfl, rfl, rfl, rfl, rfl, rfl⟩
  · rw [hact]
    decide

end Admin

namespace Console

/-- C9: for every session id and every state of the page, once `completeWork(id, 'video')` has
opened the completion dialog, a click on save with an empty video-link input shows the notice
and returns: the trace holds that alert alone, no network call, and the page is unchanged. -/
theorem save_video_without_link (workId : String) (st : State) (now : Int)
    (response : Option Bool) :
    saveComplete now response (typeVideoLink "" (completeWork workId "video" st))
        = (typeVideoLink "" (completeWork workId "video" st),
            [Effect.alert "Lütfen video linkini girin!"])
    ∧ networkCalls
        (saveComplete now response (typeVideoLink "" (completeWork workId "video" st))).2 = 0
    ∧ ∀ e ∈ (saveComplete now response (typeVideoLink "" (completeWork workId "video" st))).2,
        Effect.isFetch e = false := by
  have h : saveComplete now response (typeVideoLink "" (completeWork workId "video" st))
      = (typeVideoLink "" (completeWork workId "video" st),
          [Effect.alert "Lütfen video linkini girin!"]) := by
    simp [saveComplete, typeVideoLink, completeWork]
  refine ⟨h, ?_, ?_⟩
  · rw [h]
    rfl
  · rw [h]
    intro e he
    simp only [List.mem_singleton] at he
    subst he
    rfl

end Console

namespace Admin

/-- C10: for every employee id and every view state, `deleteEmployee(id)` with `confirm`
answering false ends in the same state (roster, day bucket, selected day, filter and page) and
its trace holds the confirmation prompt alone: no network call. -/
theorem delete_declined (tz : TimeZone) (now : Int) (be : Backend) (employeeId : String)
    (st : State) :
    deleteEmployee tz now be false employeeId st
        = (st, [Effect.confirm "Bu personeli silmek istediğinize emin misiniz?"])
    ∧ networkCalls (deleteEmployee tz now be false employeeId st).2 = 0
    ∧ (deleteEmployee tz now be false employeeId st).1.allEmployees = st.allEmployees
    ∧ (deleteEmployee tz now be false employeeId st).1.allWorks = st.allWorks
    ∧ (deleteEmployee tz now be false employeeId st).1.selectedDate = st.selectedDate
    ∧ (deleteEmployee tz now be false employeeId st).1.currentFilter = st.currentFilter
    ∧ (deleteEmployee tz now be false employeeId st).1.employeesTable = st.employeesTable := by
  have h : deleteEmployee tz now be false employeeId st
      = (st, [Effect.confirm "Bu personeli silmek istediğinize emin misiniz?"]) := by
    simp [deleteEmployee]
  rw [h]
  exact ⟨rfl, rfl, rfl, rfl, rfl, rfl, rfl⟩

/-- With the prompt accepted, the deletion request is the first network call of the trace. -/
theorem delete_confirmed_calls (tz : TimeZone) (now : Int) (be : Backend) (employeeId : String)
    (st : State) :
    1 ≤ networkCalls (deleteEmployee tz now be true employeeId st).2 := by
  unfold deleteEmployee
  cases h : be.deleteEmployee employeeId with
  | none => simp [networkCalls, Effect.isFetch]
  | some ok =>
    cases ok <;> simp [networkCalls, Effect.isFetch, List.filter_cons]


end Admin

namespace Console

/-- The request of a completion opened for a kind other than `video`: the handler sends the
text of the input, and `null` only when the input is empty. -/
theorem saveComplete_not_video (workId workType text : String) (st : State) (now : Int)
    (response : Option Bool) (hk : workType ≠ "video") :
    (saveComplete now response (completeWork workId workType (typeVideoLink text st))).2.head?
      = some (Effect.fetch "PUT" ("/api/work/" ++ workId)
          (Body.completion now (if text = "" then none else some text))) := by
  have hd : (completeWork workId workType (typeVideoLink text st)).videoLinkFieldDisplay
      = "none" := by
    simp [completeWork, hk]
  have hv : (completeWork workId workType (typeVideoLink text st)).videoLink = text := by
    unfold completeWork typeVideoLink
    split_ifs <;> rfl
  have hw : (completeWork workId workType (typeVideoLink text st)).completeWorkId = workId := by
    unfold completeWork typeVideoLink
    split_ifs <;> rfl
  have hne : ¬ ("none" : String) = "block" := by decide
  unfold saveComplete
  simp only [hd, hv, hw, hne, decide_False, Bool.false_and, Bool.false_eq_true, if_false]
  cases response with
  | none => rfl
  | some ok => cases ok <;> rfl

/-- C11, the code at the failing input: with a link left in the input by an unsuccessful video
completion, the save of the software session `w7` sends that link in its `PUT` request. -/
theorem stale_link_sent_for_software :
    staleLinkState.videoLinkFieldDisplay = "none"
    ∧ (saveComplete 2000 (some true) staleLinkState).2
        = [Effect.fetch "PUT" "/api/work/w7"
            (Body.completion 2000 (some "https://example.com/v")),
           Effect.consoleError, Effect.alert "İş tamamlanırken bir hata oluştu!"] := by
  constructor <;> decide

end Console

namespace Admin

theorem toDouble_nat (n : Nat) (hn : n ≤ 2 ^ 53) :
    JsNum.toDouble (n : ℚ) = JsNum.fin (n : ℚ) := by
  have h := JsNum.toDouble_int (n : Int) (by
    rw [abs_of_nonneg (by positivity)]
    exact_mod_cast hn)
  simpa using h

theorem parseDuration_three_raw (h m s : String) (hh : isDecimal h = true)
    (hm : isDecimal m = true) (hs : isDecimal s = true) :
    parseDuration (h ++ ":" ++ m ++ ":" ++ s)
      = JsNum.add (JsNum.mul (JsNum.toDouble (decimalValue h : ℚ)) (JsNum.fin 60))
          (JsNum.toDouble (decimalValue m : ℚ)) := by
  have e : (h ++ ":" ++ m ++ ":" ++ s).toList
      = h.toList ++ ':' :: (m.toList ++ ':' :: s.toList) := by
    simp [String.toList]
  unfold parseDuration
  simp only [e]
  rw [split_append _ _ _ (colon_not_mem_decimal h hh),
    split_append _ _ _ (colon_not_mem_decimal m hm),
    split_of_not_mem _ _ (colon_not_mem_decimal s hs)]
  show JsNum.add (JsNum.mul (parseInt h.toList) (JsNum.fin 60)) (parseInt m.toList) = _
  rw [parseInt_decimal h hh, parseInt_decimal m hm]

theorem parseDuration_two_raw (m s : String) (hm : isDecimal m = true)
    (hs : isDecimal s = true) :
    parseDuration (m ++ ":" ++ s) = JsNum.toDouble (decimalValue m : ℚ) := by
  have e : (m ++ ":" ++ s).toList = m.toList ++ ':' :: s.toList := by
    simp [String.toList]
  unfold parseDuration
  simp only [e]
  rw [split_append _ _ _ (colon_not_mem_decimal m hm),
    split_of_not_mem _ _ (colon_not_mem_decimal s hs)]
  exact parseInt_decimal m hm

theorem parseDuration_three (h m s : String) (hh : isDecimal h = true)
    (hm : isDecimal m = true) (hs : isDecimal s = true)
    (hb : decimalValue h * 60 + decimalValue m ≤ 2 ^ 53) :
    parseDuration (h ++ ":" ++ m ++ ":" ++ s)
      = JsNum.fin ((decimalValue h : ℚ) * 60 + (decimalValue m : ℚ)) := by
  rw [parseDuration_three_raw h m s hh hm hs, toDouble_nat _ (by omega),
    toDouble_nat _ (by omega)]
  have h1 : JsNum.mul (JsNum.fin (decimalValue h : ℚ)) (JsNum.fin 60)
      = JsNum.fin ((decimalValue h * 60 : Nat) : ℚ) := by
    have := toDouble_nat (decimalValue h * 60) (by omega)
    simp only [JsNum.mul]
    rw [← this]
    push_cast
    rfl
  rw [h1]
  have h2 := toDouble_nat (decimalValue h * 60 + decimalValue m) hb
  simp only [JsNum.add]
  rw [show ((decimalValue h * 60 : Nat) : ℚ) + (decimalValue m : ℚ)
    = ((decimalValue h * 60 + decimalValue m : Nat) : ℚ) by push_cast; rfl, h2]
  push_cast
  rfl

theorem parseDuration_two (m s : String) (hm : isDecimal m = true) (hs : isDecimal s = true)
    (hb : decimalValue m ≤ 2 ^ 53) :
    parseDuration (m ++ ":" ++ s) = JsNum.fin (decimalValue m : ℚ) := by
  rw [parseDuration_two_raw m s hm hs, toDouble_nat _ hb]

/-- C4, counterexample: the duration `9007199254740993:00` is of the form `MM:SS` with decimal
components, its first component denotes 9007199254740993, and `parseDuration` returns
9007199254740992, the nearest binary64 value. -/
theorem parseDuration_rounds_large :
    isDecimal "9007199254740993" = true ∧ isDecimal "00" = true
    ∧ decimalValue "9007199254740993" = 9007199254740993
    ∧ "9007199254740993" ++ ":" ++ "00" = "9007199254740993:00"
    ∧ parseDuration "9007199254740993:00" = JsNum.fin 9007199254740992
    ∧ parseDuration ("9007199254740993" ++ ":" ++ "00")
        ≠ JsNum.fin (decimalValue "9007199254740993" : ℚ) := by
  have hv : decimalValue "9007199254740993" = 9007199254740993 := by decide
  have hp : parseDuration ("9007199254740993" ++ ":" ++ "00") = JsNum.fin 9007199254740992 := by
    rw [parseDuration_two_raw _ _ (by decide) (by decide), hv]
    have := JsNum.toDouble_tie_even 9007199254740993 53 4503599627370496 (by norm_num)
      (by norm_num [abs_of_pos]) (by norm_num [abs_of_pos]) (by norm_num) (by decide)
      (by norm_num [JsNum.maxDouble, abs_of_pos])
    norm_num at this ⊢
    exact this
  refine ⟨by decide, by decide, hv, by decide, hp, ?_⟩
  rw [hp, hv]
  intro h
  have := JsNum.fin.inj h
  norm_num at this

/-- C4, as amended: `parseDuration` maps a string `H:MM:SS` of three decimal components with
`hours * 60 + minutes` at most `2^53` to `hours * 60 + minutes`, and a string `MM:SS` of two
decimal components whose first is at most `2^53` to its first component, whatever the seconds
are; `"1:30:00"` gives 90, `"45:00"` gives 45 and `"0:05:00"` gives 5. -/
theorem parseDuration_spec :
    (∀ h m s : String, isDecimal h = true → isDecimal m = true → isDecimal s = true →
      decimalValue h * 60 + decimalValue m ≤ 2 ^ 53 →
      parseDuration (h ++ ":" ++ m ++ ":" ++ s)
        = JsNum.fin ((decimalValue h : ℚ) * 60 + (decimalValue m : ℚ)))
    ∧ (∀ m s : String, isDecimal m = true → isDecimal s = true →
      decimalValue m ≤ 2 ^ 53 →
      parseDuration (m ++ ":" ++ s) = JsNum.fin (decimalValue m : ℚ))
    ∧ parseDuration "1:30:00" = JsNum.fin 90
    ∧ parseDuration "45:00" = JsNum.fin 45
    ∧ parseDuration "0:05:00" = JsNum.fin 5 := by
  refine ⟨parseDuration_three, parseDuration_two, ?_, ?_, ?_⟩
  · have h := parseDuration_three "1" "30" "00" (by decide) (by decide) (by decide) (by decide)
    have v1 : decimalValue "1" = 1 := by decide
    have v2 : decimalValue "30" = 30 := by decide
    rw [v1, v2] at h
    rw [show ("1:30:00" : String) = "1" ++ ":" ++ "30" ++ ":" ++ "00" from by decide, h]
    norm_num
  · have h := parseDuration_two "45" "00" (by decide) (by decide) (by decide)
    have v1 : decimalValue "45" = 45 := by decide
    rw [v1] at h
    rw [show ("45:00" : String) = "45" ++ ":" ++ "00" from by decide, h]
    norm_num
  · have h := parseDuration_three "0" "05" "00" (by decide) (by decide) (by decide) (by decide)
    have v1 : decimalValue "0" = 0 := by decide
    have v2 : decimalValue "05" = 5 := by decide
    rw [v1, v2] at h
    rw [show ("0:05:00" : String) = "0" ++ ":" ++ "05" ++ ":" ++ "00" from by decide, h]
    norm_num

/-- Witness for C4 as amended: the general statements at `"2:15:59"` and `"7:03"`. -/
theorem parseDuration_spec_witness :
    parseDuration ("2" ++ ":" ++ "15" ++ ":" ++ "59")
        = JsNum.fin ((decimalValue "2" : ℚ) * 60 + (decimalValue "15" : ℚ))
    ∧ parseDuration ("7" ++ ":" ++ "03") = JsNum.fin (decimalValue "7" : ℚ) :=
  ⟨parseDuration_spec.1 "2" "15" "59" (by decide) (by decide) (by decide) (by decide),
    parseDuration_spec.2.1 "7" "03" (by decide) (by decide) (by decide)⟩

theorem floor_le_roundHalfEven (q : ℚ) : ⌊q⌋ ≤ JsNum.roundHalfEven q := by
  unfold JsNum.roundHalfEven
  split_ifs <;> omega

theorem roundHalfEven_le_add_half (q : ℚ) : (JsNum.roundHalfEven q : ℚ) ≤ q + 1 / 2 := by
  have := JsNum.abs_roundHalfEven_sub_le q
  rw [abs_le] at this
  linarith

theorem toDouble_fin_eq (q r : ℚ) (h : JsNum.toDouble q = JsNum.fin r) :
    r = (JsNum.roundHalfEven (q / 2 ^ JsNum.ulpExponent q) : ℚ) * 2 ^ JsNum.ulpExponent q := by
  unfold JsNum.toDouble at h
  split_ifs at h
  exact (JsNum.fin.inj h).symm

theorem two_zpow_neg_natCast (e : Int) (n : Nat) (h : -e = n) : (2 : ℚ) ^ e * 2 ^ n = 1 := by
  have he : e = -(n : Int) := by omega
  rw [he, zpow_neg, zpow_natCast]
  field_simp

theorem floor_toDouble_div_sixty (m : ℚ) (h0 : 0 ≤ m) (hlt : m < 2 ^ 53)
    (hd : JsNum.toDouble m = JsNum.fin m) :
    ∃ r, JsNum.toDouble (m / 60) = JsNum.fin r ∧ ⌊r⌋ = ⌊m / 60⌋ := by
  have hy0 : 0 ≤ m / 60 := div_nonneg h0 (by norm_num)
  by_cases hsmall : m < 32
  · obtain ⟨r, hr, herr, hnn⟩ := JsNum.toDouble_near (m / 60) (-1) (by norm_num) (by norm_num)
      (by
        rw [abs_of_nonneg hy0]
        norm_num
        linarith)
    refine ⟨r, hr, ?_⟩
    have hr0 := hnn hy0
    rw [abs_le] at herr
    norm_num at herr
    have hr1 : r < 1 := by linarith
    have hy1 : m / 60 < 1 := by linarith
    rw [Int.floor_eq_iff.2 ⟨by simpa using hr0, by simpa using hr1⟩,
      Int.floor_eq_iff.2 ⟨by simpa using hy0, by simpa using hy1⟩]
  · have hm32 : (32 : ℚ) ≤ m := not_lt.1 hsmall
    have hmpos : 0 < m := by linarith
    have hypos : 0 < m / 60 := div_pos hmpos (by norm_num)
    have hL1 : (2 : ℚ) ^ Int.log 2 m ≤ m := by
      have := Int.zpow_log_le_self (R := ℚ) (b := 2) (r := m) (by norm_num) hmpos
      exact_mod_cast this
    have hL2 : m < (2 : ℚ) ^ (Int.log 2 m + 1) := by
      have := Int.lt_zpow_succ_log_self (R := ℚ) (b := 2) (by norm_num) m
      exact_mod_cast this
    have hL5 : 5 ≤ Int.log 2 m := by
      have := (Int.zpow_le_iff_le_log (R := ℚ) (b := 2) (by norm_num) (x := 5) hmpos).1
      exact this (by norm_num; exact hm32)
    have hL52 : Int.log 2 m < 53 := by
      have := (Int.lt_zpow_iff_log_lt (R := ℚ) (b := 2) (by norm_num) (x := 53) hmpos).1
      exact this (by norm_num; exact hlt)
    generalize hLdef : Int.log 2 m = L at hL1 hL2 hL5 hL52
    have hem : JsNum.ulpExponent m = L - 52 :=
      JsNum.ulpExponent_eq m L (by omega) (by rwa [abs_of_pos hmpos])
        (by rwa [abs_of_pos hmpos])
    have hrep := toDouble_fin_eq m m hd
    rw [hem] at hrep
    generalize JsNum.roundHalfEven (m / 2 ^ (L - 52)) = Rm at hrep
    have hsplit : (2 : ℚ) ^ (L + 1) = 32 * 2 ^ (L - 4) := by
      rw [show L + 1 = (5 : Int) + (L - 4) by ring, zpow_add₀ (by norm_num)]
      norm_num
    have hylt : m / 60 < (2 : ℚ) ^ (L - 5 + 1) := by
      rw [show L - 5 + 1 = L - 4 by ring]
      have hp := JsNum.two_zpow_pos (L - 4)
      rw [div_lt_iff₀ (by norm_num)]
      linarith
    obtain ⟨r, hr, -, -⟩ := JsNum.toDouble_near (m / 60) (L - 5) (by omega) (by omega)
      (by rwa [abs_of_pos hypos])
    refine ⟨r, hr, ?_⟩
    have hform := toDouble_fin_eq (m / 60) r hr
    have he : JsNum.ulpExponent (m / 60) ≤ L - 5 - 52 :=
      JsNum.ulpExponent_le (m / 60) (L - 5) hypos.ne' (by omega) (by rwa [abs_of_pos hypos])
    generalize JsNum.ulpExponent (m / 60) = e at hform he
    have hp : (0 : ℚ) < 2 ^ e := JsNum.two_zpow_pos e
    have hpm : (0 : ℚ) < 2 ^ (L - 52) := JsNum.two_zpow_pos _
    have h32 : 32 * (2 : ℚ) ^ e ≤ 2 ^ (L - 52) := by
      have e1 : (2 : ℚ) ^ e ≤ 2 ^ (L - 5 - 52) := zpow_le_zpow_right₀ (by norm_num) he
      have e2 : (2 : ℚ) ^ (L - 52) = 32 * 2 ^ (L - 5 - 52) := by
        rw [show L - 52 = (5 : Int) + (L - 5 - 52) by ring, zpow_add₀ (by norm_num)]
        norm_num
      rw [e2]
      linarith
    obtain ⟨n1, hn1⟩ := Int.eq_ofNat_of_zero_le (show 0 ≤ -e by omega)
    obtain ⟨n2, hn2⟩ := Int.eq_ofNat_of_zero_le (show 0 ≤ -(L - 52) by omega)
    have hq1 := two_zpow_neg_natCast e n1 hn1
    have hq2 := two_zpow_neg_natCast (L - 52) n2 hn2
    have hj1 := Int.floor_le (m / 60)
    have hj2 := Int.lt_floor_add_one (m / 60)
    generalize ⌊m / 60⌋ = j at hj1 hj2
    rw [Int.floor_eq_iff, hform]
    constructor
    · have hJ : ((j * 2 ^ n1 : Int) : ℚ) ≤ m / 60 / 2 ^ e := by
        rw [le_div_iff₀ hp]
        push_cast
        calc (j : ℚ) * 2 ^ n1 * 2 ^ e = (j : ℚ) * (2 ^ e * 2 ^ n1) := by ring
          _ = j := by rw [hq1, mul_one]
          _ ≤ m / 60 := hj1
      have hJ2 : j * 2 ^ n1 ≤ JsNum.roundHalfEven (m / 60 / 2 ^ e) :=
        le_trans (Int.le_floor.2 hJ) (floor_le_roundHalfEven _)
      have hJ3 : ((j * 2 ^ n1 : Int) : ℚ) ≤ (JsNum.roundHalfEven (m / 60 / 2 ^ e) : ℚ) := by
        exact_mod_cast hJ2
      calc (j : ℚ) = (j : ℚ) * (2 ^ e * 2 ^ n1) := by rw [hq1, mul_one]
        _ = ((j * 2 ^ n1 : Int) : ℚ) * 2 ^ e := by push_cast; ring
        _ ≤ (JsNum.roundHalfEven (m / 60 / 2 ^ e) : ℚ) * 2 ^ e :=
          mul_le_mul_of_nonneg_right hJ3 hp.le
    · have hR := roundHalfEven_le_add_half (m / 60 / 2 ^ e)
      have hR2 : (JsNum.roundHalfEven (m / 60 / 2 ^ e) : ℚ) * 2 ^ e
          ≤ m / 60 + 2 ^ e / 2 := by
        calc (JsNum.roundHalfEven (m / 60 / 2 ^ e) : ℚ) * 2 ^ e
            ≤ (m / 60 / 2 ^ e + 1 / 2) * 2 ^ e := mul_le_mul_of_nonneg_right hR hp.le
          _ = m / 60 + 2 ^ e / 2 := by
            field_simp
            ring
      have hmk : m < 60 * ((j : ℚ) + 1) := by linarith
      have hint : Rm < 60 * (j + 1) * 2 ^ n2 := by
        have : (Rm : ℚ) < ((60 * (j + 1) * 2 ^ n2 : Int) : ℚ) := by
          push_cast
          have e1 : (Rm : ℚ) = m * 2 ^ n2 := by
            rw [hrep, mul_assoc, hq2, mul_one]
          rw [e1]
          have hpos2 : (0 : ℚ) < 2 ^ n2 := by positivity
          nlinarith
        exact_mod_cast this
      have hint2 : ((Rm + 1 : Int) : ℚ) ≤ ((60 * (j + 1) * 2 ^ n2 : Int) : ℚ) := by
        exact_mod_cast (show Rm + 1 ≤ 60 * (j + 1) * 2 ^ n2 by omega)
      have hstep : m + 2 ^ (L - 52) ≤ 60 * ((j : ℚ) + 1) := by
        have e1 : m + 2 ^ (L - 52) = ((Rm + 1 : Int) : ℚ) * 2 ^ (L - 52) := by
          push_cast
          rw [hrep]
          ring
        have e2 : 60 * ((j : ℚ) + 1) = ((60 * (j + 1) * 2 ^ n2 : Int) : ℚ) * 2 ^ (L - 52) := by
          push_cast
          rw [mul_assoc, mul_comm ((2 : ℚ) ^ n2), hq2, mul_one]
        rw [e1, e2]
        exact mul_le_mul_of_nonneg_right hint2 hpm.le
      linarith

theorem div_fin (x y : ℚ) (hy : y ≠ 0) :
    JsNum.div (JsNum.fin x) (JsNum.fin y) = JsNum.toDouble (x / y) := by
  simp [JsNum.div, hy]

theorem rem_fin (x y : ℚ) (hy : y ≠ 0) :
    JsNum.rem (JsNum.fin x) (JsNum.fin y)
      = JsNum.fin (x - y * (JsNum.truncate (x / y) : ℚ)) := by
  simp [JsNum.rem, hy]

theorem floor_fin (x : ℚ) : JsNum.floor (JsNum.fin x) = JsInt.int ⌊x⌋ := rfl

theorem render_natCast (n : Nat) (h : n < 2 ^ 53) :
    JsInt.render (JsInt.int (n : Int)) = toString n := by
  have h1 : ¬ ((n : Int) < 0) := by omega
  simp only [JsInt.render, h1, if_false, Int.natAbs_ofNat, JsInt.renderNat, h, if_true]

theorem truncate_of_nonneg (q : ℚ) (hq : 0 ≤ q) : JsNum.truncate q = ⌊q⌋ := by
  simp [JsNum.truncate, hq]

theorem formatDuration_of_double (m : ℚ) (hm : 0 ≤ m) (hlt : m < 2 ^ 53)
    (hd : JsNum.toDouble m = JsNum.fin m) :
    formatDuration (JsNum.fin m) =
      if ⌊m / 60⌋₊ = 0 then toString ⌊m - 60 * (⌊m / 60⌋₊ : ℚ)⌋₊ ++ "dk"
      else toString ⌊m / 60⌋₊ ++ "s " ++ toString ⌊m - 60 * (⌊m / 60⌋₊ : ℚ)⌋₊ ++ "dk" := by
  have h60 : (0 : ℚ) ≤ m / 60 := div_nonneg hm (by norm_num)
  have hfl : (⌊m / 60⌋ : Int) = ((⌊m / 60⌋₊ : Nat) : Int) := (Int.natCast_floor_eq_floor h60).symm
  have hflq : ((⌊m / 60⌋ : Int) : ℚ) = (⌊m / 60⌋₊ : ℚ) := by
    rw [hfl]
    simp
  have hrem : (0 : ℚ) ≤ m - 60 * (⌊m / 60⌋₊ : ℚ) := by
    have := Nat.floor_le h60
    linarith
  have hfr : (⌊m - 60 * (⌊m / 60⌋₊ : ℚ)⌋ : Int) = ((⌊m - 60 * (⌊m / 60⌋₊ : ℚ)⌋₊ : Nat) : Int) :=
    (Int.natCast_floor_eq_floor hrem).symm
  obtain ⟨r, hr, hrfl⟩ := floor_toDouble_div_sixty m hm hlt hd
  have hdiv : JsNum.floor (JsNum.div (JsNum.fin m) (JsNum.fin 60))
      = JsInt.int ((⌊m / 60⌋₊ : Nat) : Int) := by
    rw [div_fin _ _ (by norm_num), hr, floor_fin, hrfl, hfl]
  have hmod : JsNum.floor (JsNum.rem (JsNum.fin m) (JsNum.fin 60))
      = JsInt.int ((⌊m - 60 * (⌊m / 60⌋₊ : ℚ)⌋₊ : Nat) : Int) := by
    rw [rem_fin _ _ (by norm_num), truncate_of_nonneg _ h60, hflq, floor_fin, hfr]
  have hb1 : ⌊m / 60⌋₊ < 2 ^ 53 := by
    rw [Nat.floor_lt h60]
    push_cast
    linarith
  have hb2 : ⌊m - 60 * (⌊m / 60⌋₊ : ℚ)⌋₊ < 2 ^ 53 := by
    rw [Nat.floor_lt hrem]
    push_cast
    have : (0 : ℚ) ≤ (⌊m / 60⌋₊ : ℚ) := Nat.cast_nonneg _
    linarith
  unfold formatDuration
  simp only [hdiv, hmod, JsInt.gt, decide_eq_true_eq, Nat.cast_pos, render_natCast _ hb1,
    render_natCast _ hb2]
  by_cases h0 : ⌊m / 60⌋₊ = 0
  · simp only [h0, lt_self_iff_false, if_false, if_true]
  · simp only [h0, Nat.pos_of_ne_zero h0, if_false, if_true]

theorem hours_zero_iff (m : ℚ) : ⌊m / 60⌋₊ = 0 ↔ m < 60 := by
  rw [Nat.floor_eq_zero, div_lt_one (by norm_num)]

theorem formatDuration_nat (n hours mins : Nat) (hn : n < 2 ^ 53) (hh : hours = n / 60)
    (hmin : mins = n % 60) :
    formatDuration (JsNum.fin (n : ℚ)) =
      if hours = 0 then toString mins ++ "dk"
      else toString hours ++ "s " ++ toString mins ++ "dk" := by
  have h1 : ⌊(n : ℚ) / 60⌋₊ = hours := by
    rw [hh]
    have : ((n : ℚ) / 60) = ((n : ℚ) / ((60 : Nat) : ℚ)) := by norm_num
    rw [this, Nat.floor_div_eq_div]
  have h2 : ⌊(n : ℚ) - 60 * (hours : ℚ)⌋₊ = mins := by
    have : (n : ℚ) - 60 * (hours : ℚ) = ((n - 60 * hours : Nat) : ℚ) := by
      have hle : 60 * hours ≤ n := by omega
      push_cast [Nat.cast_sub hle]
      rfl
    rw [this, Nat.floor_natCast]
    omega
  rw [formatDuration_of_double (n : ℚ) (by positivity) (by exact_mod_cast hn)
    (toDouble_nat n hn.le), h1, h2]

/-- C6, counterexample: the binary64 value 270215977642229792 is a non-negative number of
minutes with `floor(m/60) = 4503599627370496`, and `formatDuration` renders it with
4503599627370497 hours: the quotient `m / 60` rounds up to the next integer. -/
theorem formatDuration_rounds_hours :
    JsNum.toDouble 270215977642229792 = JsNum.fin 270215977642229792
    ∧ ⌊(270215977642229792 : ℚ) / 60⌋₊ = 4503599627370496
    ∧ ⌊(270215977642229792 : ℚ) - 60 * (4503599627370496 : ℚ)⌋₊ = 32
    ∧ formatDuration (JsNum.fin 270215977642229792) = "4503599627370497s 32dk"
    ∧ formatDuration (JsNum.fin 270215977642229792) ≠ "4503599627370496s 32dk" := by
  have hd : JsNum.toDouble 270215977642229792 = JsNum.fin 270215977642229792 := by
    have := JsNum.toDouble_dyadic 8444249301319681 5 (by norm_num [abs_of_pos]) (by norm_num)
      (by norm_num [JsNum.maxDouble, abs_of_pos])
    norm_num at this
    exact this
  have hq : JsNum.toDouble ((270215977642229792 : ℚ) / 60) = JsNum.fin 4503599627370497 := by
    have := JsNum.toDouble_eq ((270215977642229792 : ℚ) / 60) 52 4503599627370497
      (by norm_num) (by norm_num [abs_of_pos]) (by norm_num [abs_of_pos])
      (by norm_num [abs_lt]) (by norm_num [JsNum.maxDouble, abs_of_pos])
    norm_num at this ⊢
    exact this
  have hf : ⌊(270215977642229792 : ℚ) / 60⌋ = 4503599627370496 := by
    rw [Int.floor_eq_iff]
    norm_num
  have hfq : ⌊(4503599627370497 : ℚ)⌋ = ((4503599627370497 : Nat) : Int) := by
    rw [Int.floor_eq_iff]
    norm_num
  have hrq : ⌊(270215977642229792 : ℚ) - 60 * ((4503599627370496 : Int) : ℚ)⌋
      = ((32 : Nat) : Int) := by
    rw [Int.floor_eq_iff]
    norm_num
  have hdiv : JsNum.floor (JsNum.div (JsNum.fin 270215977642229792) (JsNum.fin 60))
      = JsInt.int ((4503599627370497 : Nat) : Int) := by
    rw [div_fin _ _ (by norm_num), hq, floor_fin, hfq]
  have hmod : JsNum.floor (JsNum.rem (JsNum.fin 270215977642229792) (JsNum.fin 60))
      = JsInt.int ((32 : Nat) : Int) := by
    rw [rem_fin _ _ (by norm_num),
      truncate_of_nonneg _ (show (0 : ℚ) ≤ 270215977642229792 / 60 by norm_num), hf,
      floor_fin, hrq]
  have hgt : JsInt.gt (JsInt.int ((4503599627370497 : Nat) : Int)) 0 = true := by decide
  have hfmt : formatDuration (JsNum.fin 270215977642229792) = "4503599627370497s 32dk" := by
    unfold formatDuration
    simp only [hdiv, hmod, hgt, if_true,
      render_natCast _ (show 4503599627370497 < 2 ^ 53 by norm_num),
      render_natCast _ (show 32 < 2 ^ 53 by norm_num)]
    decide
  refine ⟨hd, ?_, ?_, hfmt, ?_⟩
  · rw [Nat.floor_eq_iff (by norm_num)]
    norm_num
  · rw [Nat.floor_eq_iff (by norm_num)]
    norm_num
  · rw [hfmt]
    decide

/-- C6, as amended: for a non-negative binary64 number of minutes `m` below `2^53`, with
`hours = floor(m/60)` and `mins = floor(m mod 60)`, `formatDuration` gives `mins` followed by
`dk` when `hours = 0`, that is when `m < 60`, and `hours`, `s`, a blank, `mins`, `dk` otherwise;
0 gives `"0dk"`, 75 gives `"1s 15dk"` and 59 gives `"59dk"`. -/
theorem formatDuration_spec :
    (∀ m : ℚ, 0 ≤ m → m < 2 ^ 53 → JsNum.toDouble m = JsNum.fin m →
      formatDuration (JsNum.fin m) =
          (if ⌊m / 60⌋₊ = 0 then toString ⌊m - 60 * (⌊m / 60⌋₊ : ℚ)⌋₊ ++ "dk"
           else toString ⌊m / 60⌋₊ ++ "s " ++ toString ⌊m - 60 * (⌊m / 60⌋₊ : ℚ)⌋₊ ++ "dk")
        ∧ (⌊m / 60⌋₊ = 0 ↔ m < 60))
    ∧ formatDuration (JsNum.fin 0) = "0dk"
    ∧ formatDuration (JsNum.fin 75) = "1s 15dk"
    ∧ formatDuration (JsNum.fin 59) = "59dk" := by
  refine ⟨fun m hm hlt hd => ⟨formatDuration_of_double m hm hlt hd, hours_zero_iff m⟩,
    ?_, ?_, ?_⟩
  · have := formatDuration_nat 0 0 0 (by norm_num) (by norm_num) (by norm_num)
    norm_num at this
    rw [this]
    decide
  · have := formatDuration_nat 75 1 15 (by norm_num) (by norm_num) (by norm_num)
    norm_num at this
    rw [this]
    decide
  · have := formatDuration_nat 59 0 59 (by norm_num) (by norm_num) (by norm_num)
    norm_num at this
    rw [this]
    decide

/-- Witness for C6 as amended: the general statement at 135 minutes, which renders as
`"2s 15dk"`. -/
theorem formatDuration_spec_witness :
    JsNum.toDouble 135 = JsNum.fin 135 ∧ formatDuration (JsNum.fin 135) = "2s 15dk" := by
  have hd : JsNum.toDouble 135 = JsNum.fin 135 := by
    have := toDouble_nat 135 (by norm_num)
    norm_num at this
    exact this
  refine ⟨hd, ?_⟩
  rw [(formatDuration_spec.1 135 (by norm_num) (by norm_num) hd).1]
  have h1 : ⌊(135 : ℚ) / 60⌋₊ = 2 := by norm_num [Nat.floor_eq_iff]
  rw [h1]
  have h2 : ⌊(135 : ℚ) - 60 * ((2 : ℕ) : ℚ)⌋₊ = 15 := by norm_num
  rw [h2]
  decide

theorem totalMinutes_eq_sum (works : List WorkSession) :
    totalMinutes works
      = sumMinutes (works.map fun work => parseDuration (work.duration.getD "")) := by
  unfold totalMinutes sumMinutes
  rw [List.foldl_map]

theorem formatDuration_ne_dash (x : JsNum) : formatDuration x ≠ "-" := by
  intro h
  have hl := congrArg String.length h
  unfold formatDuration at hl
  have h2 : ("dk" : String).length = 2 := by decide
  have h1 : ("-" : String).length = 1 := by decide
  simp only [] at hl
  split_ifs at hl <;> simp only [String.length_append, h1, h2] at hl <;> omega

theorem foldl_add_nat (l : List Nat) (a : Nat) (h : a + l.sum ≤ 2 ^ 53) :
    (l.map fun (n : Nat) => JsNum.fin (n : ℚ)).foldl JsNum.add (JsNum.fin (a : ℚ))
      = JsNum.fin ((a + l.sum : Nat) : ℚ) := by
  induction l generalizing a with
  | nil => simp
  | cons n l ih =>
    have hs : (n :: l).sum = n + l.sum := List.sum_cons
    have hstep : JsNum.add (JsNum.fin (a : ℚ)) (JsNum.fin (n : ℚ))
        = JsNum.fin ((a + n : Nat) : ℚ) := by
      have := toDouble_nat (a + n) (by omega)
      simp only [JsNum.add]
      rw [← this]
      push_cast
      rfl
    rw [List.map_cons, List.foldl_cons, hstep, ih (a + n) (by omega), hs, Nat.add_assoc]

theorem truthy_iff (d : Option String) : truthy d = true ↔ d ≠ none ∧ d ≠ some "" := by
  cases d <;> simp [truthy]

theorem completedWorksWithDuration_eq (bucket : List WorkSession) :
    completedWorksWithDuration bucket
      = bucket.filter fun w =>
          decide (w.status = "completed" ∧ w.duration ≠ none ∧ w.duration ≠ some "") := by
  unfold completedWorksWithDuration
  apply List.filter_congr
  intro w _
  by_cases hs : w.status = "completed"
  · by_cases ht : truthy w.duration = true
    · have := (truthy_iff w.duration).1 ht
      simp [hs, ht, this]
    · have hn : ¬ (w.duration ≠ none ∧ w.duration ≠ some "") :=
        fun h => ht ((truthy_iff w.duration).2 h)
      simp only [hs, decide_True, Bool.true_and, true_and]
      rw [Bool.eq_false_iff.2 ht]
      exact (decide_eq_false hn).symm
  · simp [hs]

theorem avgWorkTime_eq (bucket : List WorkSession) :
    (updateStatistics bucket).avgWorkTime =
      if (completedWorksWithDuration bucket).length > 0 then
        formatDuration (JsNum.div
          (sumMinutes ((completedWorksWithDuration bucket).map fun work =>
            parseDuration (work.duration.getD "")))
          (JsNum.fin ((completedWorksWithDuration bucket).length : ℚ)))
      else "-" := by
  unfold updateStatistics
  simp only [totalMinutes_eq_sum]

/-- C7: for every day bucket the panel shows the number of sessions, the number with status
`completed`, the number with status `in_progress`; the average is the dash exactly when no
completed session has a non-empty duration, and otherwise it is `formatDuration` of the sum of
`parseDuration` over the completed sessions with a non-empty duration, added up in bucket
order, divided by their number.  When those durations parse to whole minutes whose total is at
most `2^53`, that sum is their exact total. -/
theorem updateStatistics_spec (bucket : List WorkSession) :
    (updateStatistics bucket).totalWorks = bucket.length
    ∧ (updateStatistics bucket).completedWorks
        = bucket.countP (fun work => decide (work.status = "completed"))
    ∧ (updateStatistics bucket).activeWorks
        = bucket.countP (fun work => decide (work.status = "in_progress"))
    ∧ ((updateStatistics bucket).avgWorkTime = "-" ↔
        ¬ ∃ w ∈ bucket, w.status = "completed" ∧ w.duration ≠ none ∧ w.duration ≠ some "")
    ∧ ((∃ w ∈ bucket, w.status = "completed" ∧ w.duration ≠ none ∧ w.duration ≠ some "") →
        (updateStatistics bucket).avgWorkTime
          = formatDuration (JsNum.div
              (((bucket.filter fun w =>
                  decide (w.status = "completed" ∧ w.duration ≠ none ∧ w.duration ≠ some "")).map
                fun w => parseDuration (w.duration.getD "")).foldl JsNum.add (JsNum.fin 0))
              (JsNum.fin ((bucket.countP fun w =>
                  decide (w.status = "completed" ∧ w.duration ≠ none ∧ w.duration ≠ some "")
                    : Nat) : ℚ))))
    ∧ (∀ minutes : WorkSession → Nat,
        (∃ w ∈ bucket, w.status = "completed" ∧ w.duration ≠ none ∧ w.duration ≠ some "") →
        (∀ w ∈ bucket, w.status = "completed" → w.duration ≠ none → w.duration ≠ some "" →
          parseDuration (w.duration.getD "") = JsNum.fin (minutes w : ℚ)) →
        ((bucket.filter fun w =>
            decide (w.status = "completed" ∧ w.duration ≠ none ∧ w.duration ≠ some "")).map
          minutes).sum ≤ 2 ^ 53 →
        (updateStatistics bucket).avgWorkTime
          = formatDuration (JsNum.div
              (JsNum.fin ((((bucket.filter fun w =>
                  decide (w.status = "completed" ∧ w.duration ≠ none ∧ w.duration ≠ some "")).map
                minutes).sum : Nat) : ℚ))
              (JsNum.fin ((bucket.countP fun w =>
                  decide (w.status = "completed" ∧ w.duration ≠ none ∧ w.duration ≠ some "")
                    : Nat) : ℚ)))) := by
  have hex : (∃ w ∈ bucket, w.status = "completed" ∧ w.duration ≠ none ∧ w.duration ≠ some "")
      ↔ (completedWorksWithDuration bucket).length > 0 := by
    rw [gt_iff_lt, List.length_pos_iff_exists_mem, completedWorksWithDuration_eq]
    simp only [List.mem_filter, decide_eq_true_eq]
  have havg : (∃ w ∈ bucket, w.status = "completed" ∧ w.duration ≠ none ∧ w.duration ≠ some "") →
      (updateStatistics bucket).avgWorkTime
        = formatDuration (JsNum.div
            (((bucket.filter fun w =>
                decide (w.status = "completed" ∧ w.duration ≠ none ∧ w.duration ≠ some "")).map
              fun w => parseDuration (w.duration.getD "")).foldl JsNum.add (JsNum.fin 0))
            (JsNum.fin ((bucket.countP fun w =>
                decide (w.status = "completed" ∧ w.duration ≠ none ∧ w.duration ≠ some "")
                  : Nat) : ℚ))) := by
    intro h
    have hpos := hex.1 h
    rw [avgWorkTime_eq, if_pos hpos, completedWorksWithDuration_eq, List.countP_eq_length_filter]
    rfl
  refine ⟨rfl, ?_, ?_, ?_, havg, ?_⟩
  · simp [updateStatistics, List.countP_eq_length_filter]
  · simp [updateStatistics, List.countP_eq_length_filter]
  · rw [hex, avgWorkTime_eq]
    by_cases hpos : (completedWorksWithDuration bucket).length > 0
    · simp only [hpos, if_true, not_true_eq_false, iff_false]
      exact formatDuration_ne_dash _
    · simp only [hpos, if_false, not_false_eq_true]
  · intro minutes h hparse hsum
    rw [havg h]
    have hmap : ((bucket.filter fun w =>
          decide (w.status = "completed" ∧ w.duration ≠ none ∧ w.duration ≠ some "")).map
          fun w => parseDuration (w.duration.getD ""))
        = (((bucket.filter fun w =>
          decide (w.status = "completed" ∧ w.duration ≠ none ∧ w.duration ≠ some "")).map
          minutes).map fun (n : Nat) => JsNum.fin (n : ℚ)) := by
      rw [List.map_map]
      apply List.map_congr_left
      intro w hw
      simp only [List.mem_filter, decide_eq_true_eq] at hw
      exact hparse w hw.1 hw.2.1 hw.2.2.1 hw.2.2.2
    have hfold := foldl_add_nat ((bucket.filter fun w =>
      decide (w.status = "completed" ∧ w.duration ≠ none ∧ w.duration ≠ some "")).map minutes) 0
      (by omega)
    rw [hmap]
    simp only [Nat.cast_zero, Nat.zero_add] at hfold
    rw [hfold]

theorem parseDuration_other (v : String)
    (h2 : (split ':' v.toList).length ≠ 2) (h3 : (split ':' v.toList).length ≠ 3) :
    parseDuration v = JsNum.fin 0 := by
  unfold parseDuration
  generalize split ':' v.toList = parts at h2 h3
  rcases parts with _ | ⟨a, _ | ⟨b, _ | ⟨c, _ | ⟨d, r⟩⟩⟩⟩ <;> simp at h2 h3 ⊢

theorem isParseable_empty : isParseable "" = false := by decide

theorem parseDuration_hours (h : String) (n : Nat) (hh : isDecimal h = true)
    (hv : decimalValue h = n) (hb : n * 60 ≤ 2 ^ 53) :
    parseDuration (h ++ ":" ++ "00" ++ ":" ++ "00") = JsNum.fin ((n * 60 : Nat) : ℚ) := by
  have v0 : decimalValue "00" = 0 := by decide
  rw [parseDuration_three h "00" "00" hh (by decide) (by decide) (by rw [hv, v0]; omega), hv, v0]
  push_cast
  rw [add_zero]

theorem div_nat (a b c : Nat) (hb : b ≠ 0) (hab : a = c * b) (hc : c ≤ 2 ^ 53) :
    JsNum.div (JsNum.fin (a : ℚ)) (JsNum.fin (b : ℚ)) = JsNum.fin (c : ℚ) := by
  have hbq : (b : ℚ) ≠ 0 := by exact_mod_cast hb
  rw [div_fin _ _ hbq, hab]
  push_cast
  rw [mul_div_assoc, div_self hbq, mul_one]
  exact toDouble_nat c hc

/-- Witness for C7: two completed sessions of 60 and 180 minutes average to `2s 0dk`. -/
theorem updateStatistics_spec_witness :
    (updateStatistics bucketTwoCompleted).avgWorkTime = "2s 0dk" := by
  have p1 : parseDuration "1:00:00" = JsNum.fin ((60 : Nat) : ℚ) :=
    parseDuration_hours "1" 1 (by decide) (by decide) (by norm_num)
  have p3 : parseDuration "3:00:00" = JsNum.fin ((180 : Nat) : ℚ) :=
    parseDuration_hours "3" 3 (by decide) (by decide) (by norm_num)
  have h := (updateStatistics_spec bucketTwoCompleted).2.2.2.2.2
    (fun w => if w.duration = some "1:00:00" then 60 else 180)
    ⟨sampleWork "completed" (some "1:00:00"), by simp [bucketTwoCompleted], rfl, by decide,
      by decide⟩
    (by
      intro w hw _ _ _
      simp only [bucketTwoCompleted, List.mem_cons, List.mem_singleton, List.not_mem_nil,
        or_false] at hw
      rcases hw with rfl | rfl
      · simpa [sampleWork] using p1
      · have hne : ¬ ((some "3:00:00" : Option String) = some "1:00:00") := by decide
        simpa [sampleWork, hne] using p3)
    (by decide)
  have hsum : ((bucketTwoCompleted.filter fun w =>
      decide (w.status = "completed" ∧ w.duration ≠ none ∧ w.duration ≠ some "")).map
      (fun w => if w.duration = some "1:00:00" then 60 else 180)).sum = 240 := by decide
  have hcount : (bucketTwoCompleted.countP fun w =>
      decide (w.status = "completed" ∧ w.duration ≠ none ∧ w.duration ≠ some "")) = 2 := by
    decide
  rw [h, hsum, hcount, div_nat 240 2 120 (by norm_num) (by norm_num) (by norm_num),
    formatDuration_nat 120 2 0 (by norm_num) (by norm_num) (by norm_num)]
  decide

/-- C5, counterexample: with a completed session of duration `1:00:00` and a completed session
of duration `abc` the panel shows `30dk`, while the average over the sessions with a parseable
duration is `1s 0dk`. -/
theorem average_counts_unparseable :
    (updateStatistics bucketWithBadDuration).avgWorkTime = "30dk"
    ∧ averageOverParseable bucketWithBadDuration = "1s 0dk"
    ∧ (updateStatistics bucketWithBadDuration).avgWorkTime
        ≠ averageOverParseable bucketWithBadDuration := by
  have p1 : parseDuration "1:00:00" = JsNum.fin ((60 : Nat) : ℚ) :=
    parseDuration_hours "1" 1 (by decide) (by decide) (by norm_num)
  have p2 : parseDuration "abc" = JsNum.fin ((0 : Nat) : ℚ) := by
    rw [parseDuration_other "abc" (by decide) (by decide)]
    norm_num
  have c1 : completedWorksWithDuration bucketWithBadDuration = bucketWithBadDuration := by
    decide
  have s1 : sumMinutes [JsNum.fin ((60 : Nat) : ℚ), JsNum.fin ((0 : Nat) : ℚ)]
      = JsNum.fin ((60 : Nat) : ℚ) := by
    have := foldl_add_nat [60, 0] 0 (by norm_num)
    simpa [sumMinutes] using this
  have s2 : sumMinutes [JsNum.fin ((60 : Nat) : ℚ)] = JsNum.fin ((60 : Nat) : ℚ) := by
    have := foldl_add_nat [60] 0 (by norm_num)
    simpa [sumMinutes] using this
  have a1 : (updateStatistics bucketWithBadDuration).avgWorkTime = "30dk" := by
    rw [avgWorkTime_eq, c1]
    simp only [bucketWithBadDuration, sampleWork, List.length_cons, List.length_nil, List.map,
      Option.getD_some, p1, p2, s1]
    rw [if_pos (by norm_num)]
    have hd := div_nat 60 2 30 (by norm_num) (by norm_num) (by norm_num)
    norm_num at hd ⊢
    rw [hd]
    have hf := formatDuration_nat 30 0 30 (by norm_num) (by norm_num) (by norm_num)
    norm_num at hf
    rw [hf]
    decide
  have c2 : (bucketWithBadDuration.filter fun work =>
      decide (work.status = "completed") && isParseable (work.duration.getD ""))
      = [sampleWork "completed" (some "1:00:00")] := by
    decide
  have a2 : averageOverParseable bucketWithBadDuration = "1s 0dk" := by
    unfold averageOverParseable
    simp only [c2, totalMinutes_eq_sum, sampleWork, List.length_cons, List.length_nil, List.map,
      Option.getD_some, p1, s2]
    rw [if_pos (by norm_num)]
    have hd := div_nat 60 1 60 (by norm_num) (by norm_num) (by norm_num)
    norm_num at hd ⊢
    rw [hd]
    have hf := formatDuration_nat 60 1 0 (by norm_num) (by norm_num) (by norm_num)
    norm_num at hf
    rw [hf]
    decide
  refine ⟨a1, a2, ?_⟩
  rw [a1, a2]
  decide

/-- C5, as amended: a completed session with an absent or empty duration changes nothing in the
displayed average; when every completed session with a non-empty duration is parseable, the
displayed average is the average over the sessions with a parseable duration; a completed session
whose non-empty duration does not split into two or three parts at the colons adds nothing to
the summed minutes and one to the divisor. -/
theorem average_excludes_empty_duration :
    (∀ (before after : List WorkSession) (w : WorkSession),
      w.status = "completed" → (w.duration = none ∨ w.duration = some "") →
      (updateStatistics (before ++ w :: after)).avgWorkTime
        = (updateStatistics (before ++ after)).avgWorkTime)
    ∧ (∀ bucket : List WorkSession,
      (∀ w ∈ bucket, w.status = "completed" → ∀ v, w.duration = some v → v ≠ "" →
        isParseable v = true) →
      (updateStatistics bucket).avgWorkTime = averageOverParseable bucket)
    ∧ (∀ (bucket : List WorkSession) (w : WorkSession) (v : String),
      w.status = "completed" → w.duration = some v → v ≠ "" →
      (split ':' v.toList).length ≠ 2 → (split ':' v.toList).length ≠ 3 →
      (updateStatistics (w :: bucket)).avgWorkTime
        = formatDuration (JsNum.div
            (sumMinutes ((completedWorksWithDuration bucket).map fun work =>
              parseDuration (work.duration.getD "")))
            (JsNum.fin (((completedWorksWithDuration bucket).length : ℚ) + 1)))) := by
  refine ⟨?_, ?_, ?_⟩
  · intro before after w _ hd
    have hf : truthy w.duration = false := by
      rcases hd with h | h <;> simp [h, truthy]
    have hc : completedWorksWithDuration (before ++ w :: after)
        = completedWorksWithDuration (before ++ after) := by
      simp [completedWorksWithDuration, List.filter_append, List.filter_cons, hf]
    rw [avgWorkTime_eq, avgWorkTime_eq, hc]
  · intro bucket hp
    have hc : completedWorksWithDuration bucket = bucket.filter fun work =>
        decide (work.status = "completed") && isParseable (work.duration.getD "") := by
      unfold completedWorksWithDuration
      apply List.filter_congr
      intro w hw
      by_cases hs : w.status = "completed"
      · cases hd : w.duration with
        | none => simp [hs, truthy, isParseable_empty]
        | some v =>
          by_cases hv : v = ""
          · simp [hs, truthy, hv, isParseable_empty]
          · simp [hs, truthy, hv, hp w hw hs v hd hv]
      · simp [hs]
    unfold averageOverParseable
    rw [avgWorkTime_eq, hc]
    simp only [totalMinutes_eq_sum]
  · intro bucket w v hs hd hv h2 h3
    have ht : truthy w.duration = true := by simp [hd, truthy, hv]
    have hc : completedWorksWithDuration (w :: bucket) = w :: completedWorksWithDuration bucket := by
      simp [completedWorksWithDuration, List.filter_cons, hs, ht]
    have hz : ∀ xs : List JsNum, sumMinutes (JsNum.fin 0 :: xs) = sumMinutes xs := by
      intro xs
      have h00 : JsNum.add (JsNum.fin 0) (JsNum.fin 0) = JsNum.fin 0 := by
        simp only [JsNum.add, add_zero]
        exact JsNum.toDouble_zero
      simp only [sumMinutes, List.foldl_cons, h00]
    rw [avgWorkTime_eq, hc]
    simp only [List.length_cons, gt_iff_lt, Nat.zero_lt_succ, if_true, List.map_cons,
      hd, Option.getD_some, parseDuration_other v h2 h3, hz, Nat.cast_add, Nat.cast_one]

/-- Witness for C5 as amended: a completed session without a duration next to one of 90
minutes; a bucket of parseable durations; a completed session with duration `abc`. -/
theorem average_excludes_empty_duration_witness :
    (updateStatistics ([sampleWork "completed" (some "1:30:00")]
        ++ sampleWork "completed" none :: [])).avgWorkTime
      = (updateStatistics ([sampleWork "completed" (some "1:30:00")] ++ [])).avgWorkTime
    ∧ (updateStatistics [sampleWork "completed" (some "1:30:00")]).avgWorkTime
      = averageOverParseable [sampleWork "completed" (some "1:30:00")]
    ∧ (updateStatistics (sampleWork "completed" (some "abc") :: [])).avgWorkTime
      = formatDuration (JsNum.div
          (sumMinutes ((completedWorksWithDuration []).map fun work =>
            parseDuration (work.duration.getD "")))
          (JsNum.fin (((completedWorksWithDuration []).length : ℚ) + 1))) :=
  ⟨average_excludes_empty_duration.1 [sampleWork "completed" (some "1:30:00")] []
      (sampleWork "completed" none) rfl (Or.inl rfl),
    average_excludes_empty_duration.2.1 [sampleWork "completed" (some "1:30:00")]
      (by
        intro w hw _ v hd _
        simp only [List.mem_singleton] at hw
        subst hw
        simp only [sampleWork, Option.some.injEq] at hd
        subst hd
        decide),
    average_excludes_empty_duration.2.2 [] (sampleWork "completed" (some "abc")) "abc" rfl rfl
      (by decide) (by decide) (by decide)⟩

theorem lookup_cell (tz : TimeZone) (now : Int) (allEmployees : List Employee)
    (allWorks : List WorkSession) (i : Nat) (employee : Employee)
    (hi : allEmployees[i]? = some employee) (h : Int) (h9 : 9 ≤ h) (h18 : h ≤ 18) :
    ((updateTimeTable tz now allEmployees allWorks)[i]?.bind
        fun row => row.cells[(h - 9).toNat]?)
      = some ((hourWorks tz now allWorks employee h).map (workBar tz now h)) := by
  simp only [updateTimeTable, List.getElem?_map, hi, Option.map_some', Option.some_bind]
  interval_cases h <;> rfl

theorem inHour_eq_spec (tz : TimeZone) (now : Int) (employee : Employee) (h : Int)
    (s : WorkSession) : inHour tz now employee h s = specSelected tz now employee h s := by
  unfold inHour specSelected specStartHour specEndHour effectiveEnd
  cases s.startTime <;> rcases s.endTime with _ | _ | _ <;>
    simp [JsDate.getHours, JsNum.strictEq, JsNum.lt]

theorem hourWorks_eq_filter (tz : TimeZone) (now : Int) (allWorks : List WorkSession)
    (employee : Employee) (h : Int) :
    hourWorks tz now allWorks employee h = allWorks.filter (specSelected tz now employee h) := by
  unfold hourWorks
  apply List.filter_congr
  intro s _
  exact inHour_eq_spec tz now employee h s

theorem forall2_map {α β : Type} (R : α → β → Prop) (f : α → β) (l : List α)
    (h : ∀ a ∈ l, R a (f a)) : List.Forall₂ R l (l.map f) := by
  induction l with
  | nil => exact List.Forall₂.nil
  | cons a l ih =>
    exact List.Forall₂.cons (h a (by simp)) (ih fun b hb => h b (by simp [hb]))

theorem specSelected_iff (tz : TimeZone) (now : Int) (employee : Employee) (h : Int)
    (s : WorkSession) :
    specSelected tz now employee h s = true ↔
      s.employeeId = employee.id ∧
        ((∃ ts, s.startTime = some ts ∧ (tz.hours ts : Int) = h)
          ∨ (∃ te, s.endTime = some (some te) ∧ (tz.hours te : Int) = h)
          ∨ (s.endTime = none ∧ (tz.hours now : Int) = h)
          ∨ (∃ ts, s.startTime = some ts ∧ (tz.hours ts : Int) < h
              ∧ ((∃ te, s.endTime = some (some te) ∧ h < (tz.hours te : Int))
                ∨ (s.endTime = none ∧ h < (tz.hours now : Int))))) := by
  unfold specSelected specStartHour specEndHour
  cases s.startTime <;> rcases s.endTime with _ | _ | _ <;> simp [or_assoc]

/-- C3: in the table built by `updateTimeTable`, the cell of an employee in hour slot `h`
(9 to 18) holds exactly one bar, in bucket order, for each session of the day bucket that is
the employee's and whose start hour is `h`, or whose effective end hour (end timestamp if
present, otherwise now) is `h`, or whose start hour is below `h` and effective end hour above
`h`; and for no other session. -/
theorem timeline_slot_selection (tz : TimeZone) (now : Int) (allEmployees : List Employee)
    (allWorks : List WorkSession) :
    (∀ (i : Nat) (employee : Employee), allEmployees[i]? = some employee →
      ∀ h : Int, 9 ≤ h → h ≤ 18 →
        ∃ cell, ((updateTimeTable tz now allEmployees allWorks)[i]?.bind
            fun row => row.cells[(h - 9).toNat]?) = some cell
          ∧ List.Forall₂
              (fun (s : WorkSession) (bar : Bar) =>
                bar.className = "work-bar " ++ s.workType ++ " " ++ s.status)
              (allWorks.filter (specSelected tz now employee h)) cell)
    ∧ (∀ (employee : Employee) (h : Int) (s : WorkSession),
        s ∈ allWorks.filter (specSelected tz now employee h) ↔
          s ∈ allWorks ∧ s.employeeId = employee.id ∧
            ((∃ ts, s.startTime = some ts ∧ (tz.hours ts : Int) = h)
              ∨ (∃ te, s.endTime = some (some te) ∧ (tz.hours te : Int) = h)
              ∨ (s.endTime = none ∧ (tz.hours now : Int) = h)
              ∨ (∃ ts, s.startTime = some ts ∧ (tz.hours ts : Int) < h
                  ∧ ((∃ te, s.endTime = some (some te) ∧ h < (tz.hours te : Int))
                    ∨ (s.endTime = none ∧ h < (tz.hours now : Int)))))) := by
  constructor
  · intro i employee hi h h9 h18
    refine ⟨_, lookup_cell tz now allEmployees allWorks i employee hi h h9 h18, ?_⟩
    rw [hourWorks_eq_filter]
    exact forall2_map _ _ _ (fun s _ => rfl)
  · intro employee h s
    rw [List.mem_filter, specSelected_iff]

/-- Witness for C3: with the completed session 09:40-11:10 and a session in progress since
10:05, at 10:30 the hour-10 cell of employee `e1` holds two bars. -/
theorem timeline_slot_selection_witness :
    ∃ cell, ((updateTimeTable utc (clock 10 30) [⟨"e1", "Ada"⟩]
          [sampleSession (clock 9 40) (clock 11 10),
           { sessionWithStatus "w2" "in_progress" with startTime := some (clock 10 5) }])[0]?.bind
        fun row => row.cells[((10 : Int) - 9).toNat]?) = some cell
      ∧ cell.length = 2 := by
  obtain ⟨cell, h1, h2⟩ := (timeline_slot_selection utc (clock 10 30) [⟨"e1", "Ada"⟩]
    [sampleSession (clock 9 40) (clock 11 10),
     { sessionWithStatus "w2" "in_progress" with startTime := some (clock 10 5) }]).1
    0 ⟨"e1", "Ada"⟩ rfl 10 (by decide) (by decide)
  refine ⟨cell, h1, ?_⟩
  rw [← h2.length_eq]
  decide

theorem mul_fin (x y : ℚ) : JsNum.mul (JsNum.fin x) (JsNum.fin y) = JsNum.toDouble (x * y) := rfl

theorem sub_fin (x y : ℚ) : JsNum.sub (JsNum.fin x) (JsNum.fin y) = JsNum.toDouble (x - y) := by
  simp [JsNum.sub, JsNum.neg, JsNum.add, sub_eq_add_neg]

theorem barGeometry_ops (tz : TimeZone) (now h : Int) (s : WorkSession) :
    barGeometry tz now h s =
      if specStartHour tz s = some h ∧ specEndHour tz now s = some h then
        (JsNum.mul (JsNum.div (JsNum.fin (specStartMinute tz s)) (JsNum.fin 60)) (JsNum.fin 100),
         JsNum.mul (JsNum.div (JsNum.sub (JsNum.fin (specEndMinute tz now s))
           (JsNum.fin (specStartMinute tz s))) (JsNum.fin 60)) (JsNum.fin 100))
      else if specStartHour tz s = some h then
        (JsNum.mul (JsNum.div (JsNum.fin (specStartMinute tz s)) (JsNum.fin 60)) (JsNum.fin 100),
         JsNum.sub (JsNum.fin 100)
           (JsNum.mul (JsNum.div (JsNum.fin (specStartMinute tz s)) (JsNum.fin 60))
             (JsNum.fin 100)))
      else if specEndHour tz now s = some h then
        (JsNum.fin 0,
         JsNum.mul (JsNum.div (JsNum.fin (specEndMinute tz now s)) (JsNum.fin 60))
           (JsNum.fin 100))
      else (JsNum.fin 0, JsNum.fin 100) := by
  unfold barGeometry specStartHour specEndHour specStartMinute specEndMinute effectiveEnd
  cases s.startTime <;> rcases s.endTime with _ | _ | _ <;>
    simp only [JsDate.getHours, JsDate.getMinutes, JsNum.strictEq, Option.map_some',
      Option.map_none', Bool.and_eq_true, decide_eq_true_eq, Option.some.injEq,
      Bool.false_eq_true, false_and, and_false, if_false, reduceCtorEq] <;>
    split_ifs <;> simp_all

theorem specStartMinute_nat (tz : TimeZone) (s : WorkSession) :
    ∃ n : Nat, n < 60 ∧ specStartMinute tz s = (n : ℚ) := by
  unfold specStartMinute
  cases s.startTime with
  | none => exact ⟨0, by norm_num, by simp⟩
  | some t => exact ⟨tz.minutes t, tz.minutes_lt t, rfl⟩

theorem specEndMinute_nat (tz : TimeZone) (now : Int) (s : WorkSession) :
    ∃ n : Nat, n < 60 ∧ specEndMinute tz now s = (n : ℚ) := by
  unfold specEndMinute
  rcases s.endTime with _ | _ | t
  · exact ⟨tz.minutes now, tz.minutes_lt now, rfl⟩
  · exact ⟨0, by norm_num, by simp⟩
  · exact ⟨tz.minutes t, tz.minutes_lt t, rfl⟩

theorem percent_near (d : ℚ) (hd : |d| ≤ 59) :
    ∃ p, JsNum.mul (JsNum.div (JsNum.fin d) (JsNum.fin 60)) (JsNum.fin 100) = JsNum.fin p
      ∧ |p - 100 * d / 60| ≤ 2 ^ (-46 : Int) ∧ (0 ≤ d → 0 ≤ p) := by
  have hd' := abs_le.1 hd
  obtain ⟨x, hx, hxe, hxs⟩ := JsNum.toDouble_near (d / 60) (-1) (by norm_num) (by norm_num)
    (by
      rw [abs_div, abs_of_pos (show (0 : ℚ) < 60 by norm_num)]
      norm_num
      rw [div_lt_one (by norm_num)]
      linarith)
  have hxe' := abs_le.1 hxe
  norm_num at hxe'
  obtain ⟨p, hp, hpe, hps⟩ := JsNum.toDouble_near (x * 100) 6 (by norm_num) (by norm_num)
    (by
      rw [abs_lt]
      norm_num
      constructor <;> linarith)
  have hpe' := abs_le.1 hpe
  norm_num at hpe'
  refine ⟨p, ?_, ?_, ?_⟩
  · rw [div_fin _ _ (by norm_num), hx, mul_fin, hp]
  · rw [abs_le]
    norm_num
    constructor <;> linarith
  · intro h0
    exact hps (mul_nonneg (hxs (div_nonneg h0 (by norm_num))) (by norm_num))

theorem sub_hundred_near (l : ℚ) (h0 : 0 ≤ l) (h1 : l ≤ 100) :
    ∃ w, JsNum.sub (JsNum.fin 100) (JsNum.fin l) = JsNum.fin w
      ∧ |w - (100 - l)| ≤ 2 ^ (-47 : Int) ∧ 0 ≤ w := by
  obtain ⟨w, hw, hwe, hws⟩ := JsNum.toDouble_near (100 - l) 6 (by norm_num) (by norm_num)
    (by
      rw [abs_lt]
      norm_num
      constructor <;> linarith)
  exact ⟨w, by rw [sub_fin, hw], by simpa using hwe, hws (by linarith)⟩

theorem sub_minutes (a b : Nat) (ha : a < 60) (hb : b < 60) :
    JsNum.sub (JsNum.fin (a : ℚ)) (JsNum.fin (b : ℚ)) = JsNum.fin ((a : ℚ) - (b : ℚ)) := by
  rw [sub_fin]
  have := JsNum.toDouble_int ((a : Int) - (b : Int)) (by
    rw [abs_le]
    push_cast
    have h1 : (a : ℚ) < 60 := by exact_mod_cast ha
    have h2 : (b : ℚ) < 60 := by exact_mod_cast hb
    have h3 : (0 : ℚ) ≤ a := Nat.cast_nonneg _
    have h4 : (0 : ℚ) ≤ b := Nat.cast_nonneg _
    constructor <;> norm_num <;> linarith)
  push_cast at this
  exact this

theorem geometry_near (tz : TimeZone) (now h : Int) (s : WorkSession) :
    ∃ l w : ℚ, barGeometry tz now h s = (JsNum.fin l, JsNum.fin w)
      ∧ |l - (specGeometry tz now h s).1| ≤ 1 / 10 ^ 13
      ∧ |w - (specGeometry tz now h s).2| ≤ 1 / 10 ^ 13
      ∧ 0 ≤ l
      ∧ ((specStartHour tz s = some h → specEndHour tz now s = some h →
            specStartMinute tz s ≤ specEndMinute tz now s) → 0 ≤ w)
      ∧ (specStartHour tz s ≠ some h → l = 0)
      ∧ (specStartHour tz s ≠ some h → specEndHour tz now s ≠ some h → w = 100) := by
  obtain ⟨a, ha, hsa⟩ := specStartMinute_nat tz s
  obtain ⟨b, hb, hsb⟩ := specEndMinute_nat tz now s
  have qa : (a : ℚ) < 60 := by exact_mod_cast ha
  have qb : (b : ℚ) < 60 := by exact_mod_cast hb
  have qa0 : (0 : ℚ) ≤ a := Nat.cast_nonneg _
  have qb0 : (0 : ℚ) ≤ b := Nat.cast_nonneg _
  have qa59 : (a : ℚ) ≤ 59 := by exact_mod_cast (show a ≤ 59 by omega)
  have qb59 : (b : ℚ) ≤ 59 := by exact_mod_cast (show b ≤ 59 by omega)
  obtain ⟨pa, hpa, hpae, hpas⟩ := percent_near (a : ℚ) (by rw [abs_of_nonneg qa0]; exact qa59)
  obtain ⟨pb, hpb, hpbe, hpbs⟩ := percent_near (b : ℚ) (by rw [abs_of_nonneg qb0]; exact qb59)
  obtain ⟨pd, hpd, hpde, hpds⟩ := percent_near ((b : ℚ) - (a : ℚ)) (by
    rw [abs_le]
    constructor <;> linarith)
  have hpae' := abs_le.1 hpae
  have hpbe' := abs_le.1 hpbe
  have hpde' := abs_le.1 hpde
  norm_num at hpae' hpbe' hpde'
  have hpa0 := hpas qa0
  have hpb0 := hpbs qb0
  obtain ⟨w1, hw1, hw1e, hw10⟩ := sub_hundred_near pa hpa0 (by linarith)
  have hw1e' := abs_le.1 hw1e
  norm_num at hw1e'
  rw [barGeometry_ops]
  unfold specGeometry
  rw [hsa, hsb, sub_minutes b a hb ha, hpa, hpb, hpd, hw1]
  by_cases h1 : specStartHour tz s = some h
  · by_cases h2 : specEndHour tz now s = some h
    · rw [if_pos ⟨h1, h2⟩, if_pos ⟨h1, h2⟩]
      refine ⟨pa, pd, rfl, ?_, ?_, hpa0, ?_, fun h => absurd h1 h, fun h => absurd h1 h⟩
      · rw [abs_le]
        constructor <;> norm_num <;> linarith
      · rw [abs_le]
        constructor <;> norm_num <;> linarith
      · intro hle
        have := hle h1 h2
        exact hpds (by linarith)
    · rw [if_neg (fun h => h2 h.2), if_pos h1, if_neg (fun h => h2 h.2), if_pos h1]
      refine ⟨pa, w1, rfl, ?_, ?_, hpa0, fun _ => hw10, fun h => absurd h1 h,
        fun h => absurd h1 h⟩
      · rw [abs_le]
        constructor <;> norm_num <;> linarith
      · rw [abs_le]
        constructor <;> norm_num <;> linarith
  · by_cases h2 : specEndHour tz now s = some h
    · rw [if_neg (fun h => h1 h.1), if_neg h1, if_pos h2, if_neg (fun h => h1 h.1), if_neg h1,
        if_pos h2]
      refine ⟨0, pb, rfl, ?_, ?_, le_refl _, fun _ => hpb0, fun _ => rfl, fun _ h => absurd h2 h⟩
      · norm_num
      · rw [abs_le]
        constructor <;> norm_num <;> linarith
    · rw [if_neg (fun h => h1 h.1), if_neg h1, if_neg h2, if_neg (fun h => h1 h.1), if_neg h1,
        if_neg h2]
      exact ⟨0, 100, rfl, by norm_num, by norm_num, le_refl _, fun _ => by norm_num,
        fun _ => rfl, fun _ _ => rfl⟩

theorem utc_clock (a b : Nat) (ha : a < 24) (hb : b < 60) :
    utc.hours (clock a b) = a ∧ utc.minutes (clock a b) = b := by
  simp only [utc, fixedOffset, clock, msPerDay, msPerHour, msPerMinute]
  constructor <;> omega

theorem sample_spec (a b c d : Nat) (ha : a < 24) (hb : b < 60) (hc : c < 24) (hd : d < 60)
    (now : Int) :
    specStartHour utc (sampleSession (clock a b) (clock c d)) = some (a : Int)
    ∧ specEndHour utc now (sampleSession (clock a b) (clock c d)) = some (c : Int)
    ∧ specStartMinute utc (sampleSession (clock a b) (clock c d)) = (b : ℚ)
    ∧ specEndMinute utc now (sampleSession (clock a b) (clock c d)) = (d : ℚ) := by
  obtain ⟨h1, h2⟩ := utc_clock a b ha hb
  obtain ⟨h3, h4⟩ := utc_clock c d hc hd
  simp only [specStartHour, specEndHour, specStartMinute, specEndMinute, sampleSession, h1, h2,
    h3, h4, and_self]

theorem lookup_single (tz : TimeZone) (now : Int) (employee : Employee) (s : WorkSession)
    (h : Int) (h9 : 9 ≤ h) (h18 : h ≤ 18) (hsel : specSelected tz now employee h s = true) :
    ((updateTimeTable tz now [employee] [s])[0]?.bind fun row => row.cells[(h - 9).toNat]?)
      = some [workBar tz now h s] := by
  rw [lookup_cell tz now [employee] [s] 0 employee rfl h h9 h18, hourWorks_eq_filter]
  simp [List.filter, hsel]

theorem sample_selected (a b c d : Nat) (ha : a < 24) (hb : b < 60) (hc : c < 24) (hd : d < 60)
    (now h : Int) (hsel : (a : Int) = h ∨ (c : Int) = h ∨ ((a : Int) < h ∧ h < (c : Int))) :
    specSelected utc now ⟨"e1", "Ada"⟩ h (sampleSession (clock a b) (clock c d)) = true := by
  obtain ⟨h1, h2, -, -⟩ := sample_spec a b c d ha hb hc hd now
  unfold specSelected
  rw [h1, h2]
  simp only [sampleSession, decide_True, Bool.true_and, Option.some.injEq, Bool.or_eq_true,
    decide_eq_true_eq]
  tauto

theorem percent_eval (d x p : ℚ) (hx : JsNum.toDouble (d / 60) = JsNum.fin x)
    (hp : JsNum.toDouble (x * 100) = JsNum.fin p) :
    JsNum.mul (JsNum.div (JsNum.fin d) (JsNum.fin 60)) (JsNum.fin 100) = JsNum.fin p := by
  rw [div_fin _ _ (by norm_num), hx, mul_fin, hp]

theorem percent_forty :
    JsNum.mul (JsNum.div (JsNum.fin 40) (JsNum.fin 60)) (JsNum.fin 100)
      = JsNum.fin (2345624805922133 / 35184372088832) := by
  have h1 : JsNum.toDouble ((40 : ℚ) / 60) = JsNum.fin (6004799503160661 / 9007199254740992) := by
    have := JsNum.toDouble_eq ((40 : ℚ) / 60) (-1) 6004799503160661 (by norm_num)
      (by norm_num [abs_of_pos]) (by norm_num [abs_of_pos]) (by norm_num [abs_lt])
      (by norm_num [JsNum.maxDouble, abs_of_pos])
    rw [this]
    norm_num
  have h2 : JsNum.toDouble ((6004799503160661 / 9007199254740992 : ℚ) * 100)
      = JsNum.fin (2345624805922133 / 35184372088832) := by
    have := JsNum.toDouble_eq ((6004799503160661 / 9007199254740992 : ℚ) * 100) 6
      4691249611844266 (by norm_num) (by norm_num [abs_of_pos]) (by norm_num [abs_of_pos])
      (by norm_num [abs_lt]) (by norm_num [JsNum.maxDouble, abs_of_pos])
    rw [this]
    norm_num
  exact percent_eval 40 _ _ h1 h2

theorem percent_half_hour :
    JsNum.mul (JsNum.div (JsNum.sub (JsNum.fin ((50 : Nat) : ℚ)) (JsNum.fin ((20 : Nat) : ℚ)))
      (JsNum.fin 60)) (JsNum.fin 100) = JsNum.fin 50 := by
  rw [sub_minutes 50 20 (by norm_num) (by norm_num)]
  have h1 : JsNum.toDouble ((((50 : Nat) : ℚ) - ((20 : Nat) : ℚ)) / 60) = JsNum.fin (1 / 2) := by
    have := JsNum.toDouble_dyadic 1 (-1) (by norm_num) (by norm_num)
      (by norm_num [JsNum.maxDouble, abs_of_pos])
    norm_num at this ⊢
    exact this
  have h2 : JsNum.toDouble ((1 / 2 : ℚ) * 100) = JsNum.fin 50 := by
    have := toDouble_nat 50 (by norm_num)
    norm_num at this ⊢
    exact this
  exact percent_eval _ _ _ h1 h2

/-- C2, counterexample: for the session 09:40-11:10 the bar in the hour-9 cell has left
`2345624805922133 / 2^45`, the binary64 result of `(40 / 60) * 100` (66.66666666666666), which
is not `100 * 40 / 60`. -/
theorem bar_left_is_rounded :
    (∀ now, ∃ bar, ((updateTimeTable utc now [⟨"e1", "Ada"⟩]
          [sampleSession (clock 9 40) (clock 11 10)])[0]?.bind
        fun row => row.cells[((9 : Int) - 9).toNat]?) = some [bar]
      ∧ bar.left = JsNum.fin (2345624805922133 / 35184372088832))
    ∧ (2345624805922133 / 35184372088832 : ℚ) ≠ 100 * 40 / 60 := by
  constructor
  · intro now
    obtain ⟨h1, h2, h3, h4⟩ := sample_spec 9 40 11 10 (by norm_num) (by norm_num) (by norm_num)
      (by norm_num) now
    refine ⟨_, lookup_single utc now _ _ 9 (by norm_num) (by norm_num)
      (sample_selected 9 40 11 10 (by norm_num) (by norm_num) (by norm_num) (by norm_num) now 9
        (Or.inl rfl)), ?_⟩
    have hne : ¬ ((some ((11 : Nat) : Int) : Option Int) = some 9) := by decide
    simp only [workBar, barGeometry_ops, h1, h2, h3, true_and, hne, if_false, if_true,
      Nat.cast_ofNat]
    exact percent_forty
  · norm_num

theorem specGeometry_valid (tz : TimeZone) (now h : Int) (s : WorkSession) (ts te : Int)
    (hs : s.startTime = some ts)
    (he : s.endTime = some (some te) ∨ (s.endTime = none ∧ te = now)) :
    specGeometry tz now h s =
      if (tz.hours ts : Int) = h ∧ (tz.hours te : Int) = h then
        (100 * (tz.minutes ts : ℚ) / 60,
         100 * ((tz.minutes te : ℚ) - (tz.minutes ts : ℚ)) / 60)
      else if (tz.hours ts : Int) = h then
        (100 * (tz.minutes ts : ℚ) / 60, 100 - 100 * (tz.minutes ts : ℚ) / 60)
      else if (tz.hours te : Int) = h then (0, 100 * (tz.minutes te : ℚ) / 60)
      else (0, 100) := by
  unfold specGeometry specStartHour specEndHour specStartMinute specEndMinute
  rcases he with he | ⟨he, rfl⟩ <;> simp only [hs, he, Option.some.injEq]

theorem sample_bar (a b c d : Nat) (ha : a < 24) (hb : b < 60) (hc : c < 24) (hd : d < 60)
    (now h : Int) :
    ∃ l w : ℚ, workBar utc now h (sampleSession (clock a b) (clock c d))
        = { className := "work-bar video completed", left := JsNum.fin l, width := JsNum.fin w }
      ∧ |l - (if (a : Int) = h ∧ (c : Int) = h then
              ((100 * (b : ℚ) / 60, 100 * ((d : ℚ) - (b : ℚ)) / 60) : ℚ × ℚ)
            else if (a : Int) = h then (100 * (b : ℚ) / 60, 100 - 100 * (b : ℚ) / 60)
            else if (c : Int) = h then (0, 100 * (d : ℚ) / 60)
            else (0, 100)).1| ≤ 1 / 10 ^ 13
      ∧ |w - (if (a : Int) = h ∧ (c : Int) = h then
              ((100 * (b : ℚ) / 60, 100 * ((d : ℚ) - (b : ℚ)) / 60) : ℚ × ℚ)
            else if (a : Int) = h then (100 * (b : ℚ) / 60, 100 - 100 * (b : ℚ) / 60)
            else if (c : Int) = h then (0, 100 * (d : ℚ) / 60)
            else (0, 100)).2| ≤ 1 / 10 ^ 13
      ∧ ((a : Int) ≠ h → l = 0)
      ∧ ((a : Int) ≠ h → (c : Int) ≠ h → w = 100) := by
  obtain ⟨h1, h2⟩ := utc_clock a b ha hb
  obtain ⟨h3, h4⟩ := utc_clock c d hc hd
  obtain ⟨s1, s2, -, -⟩ := sample_spec a b c d ha hb hc hd now
  obtain ⟨l, w, hg, hl, hw, -, -, hl0, hw100⟩ :=
    geometry_near utc now h (sampleSession (clock a b) (clock c d))
  rw [specGeometry_valid utc now h _ (clock a b) (clock c d) rfl (Or.inl rfl), h1, h2, h3, h4]
    at hl hw
  rw [s1] at hl0 hw100
  rw [s2] at hw100
  have hbar : workBar utc now h (sampleSession (clock a b) (clock c d))
      = { className := "work-bar video completed",
          left := (barGeometry utc now h (sampleSession (clock a b) (clock c d))).1,
          width := (barGeometry utc now h (sampleSession (clock a b) (clock c d))).2 } := rfl
  refine ⟨l, w, ?_, hl, hw, ?_, ?_⟩
  · rw [hbar, hg]
  · intro hne
    exact hl0 (fun h' => hne (Option.some.inj h'))
  · intro hne1 hne2
    exact hw100 (fun h' => hne1 (Option.some.inj h')) (fun h' => hne2 (Option.some.inj h'))

/-- C2, as amended: the bar drawn in slot `h` for a selected session has `left` and `width`
equal, up to the rounding of binary64 arithmetic (within `10^-13`), to
`(100*sm/60, 100*(em-sm)/60)` when both the start hour and the effective end hour are `h`,
`(100*sm/60, 100 - 100*sm/60)` when only the start hour is `h`, `(0, 100*em/60)` with left
exactly 0 when only the effective end hour is `h`, and exactly `(0, 100)` otherwise.  The
session 09:20-09:50 has left 33.33 to the digits shown and width exactly 50 in the hour-9 cell;
the session 09:40-11:10 has left 66.6 and width 33.3 in hour 9, exactly `(0, 100)` in hour 10,
left 0 and width 16.6 in hour 11, each to the digits shown. -/
theorem timeline_bar_geometry :
    (∀ (tz : TimeZone) (now : Int) (allEmployees : List Employee) (allWorks : List WorkSession)
      (i : Nat) (employee : Employee), allEmployees[i]? = some employee →
      ∀ h : Int, 9 ≤ h → h ≤ 18 →
        ∃ cell, ((updateTimeTable tz now allEmployees allWorks)[i]?.bind
            fun row => row.cells[(h - 9).toNat]?) = some cell
          ∧ List.Forall₂
              (fun (s : WorkSession) (bar : Bar) =>
                ∃ l w : ℚ, bar.left = JsNum.fin l ∧ bar.width = JsNum.fin w
                  ∧ |l - (specGeometry tz now h s).1| ≤ 1 / 10 ^ 13
                  ∧ |w - (specGeometry tz now h s).2| ≤ 1 / 10 ^ 13
                  ∧ (specStartHour tz s ≠ some h → l = 0)
                  ∧ (specStartHour tz s ≠ some h → specEndHour tz now s ≠ some h → w = 100))
              (allWorks.filter (specSelected tz now employee h)) cell)
    ∧ (∀ (tz : TimeZone) (now h : Int) (s : WorkSession) (ts te : Int),
        s.startTime = some ts →
        (s.endTime = some (some te) ∨ (s.endTime = none ∧ te = now)) →
        specGeometry tz now h s =
          if (tz.hours ts : Int) = h ∧ (tz.hours te : Int) = h then
            (100 * (tz.minutes ts : ℚ) / 60,
             100 * ((tz.minutes te : ℚ) - (tz.minutes ts : ℚ)) / 60)
          else if (tz.hours ts : Int) = h then
            (100 * (tz.minutes ts : ℚ) / 60, 100 - 100 * (tz.minutes ts : ℚ) / 60)
          else if (tz.hours te : Int) = h then (0, 100 * (tz.minutes te : ℚ) / 60)
          else (0, 100))
    ∧ (∀ now : Int, ∃ (bar : Bar) (l : ℚ),
        ((updateTimeTable utc now [⟨"e1", "Ada"⟩]
            [sampleSession (clock 9 20) (clock 9 50)])[0]?.bind
          fun row => row.cells[((9 : Int) - 9).toNat]?) = some [bar]
        ∧ bar.left = JsNum.fin l ∧ bar.width = JsNum.fin 50 ∧ 33.33 ≤ l ∧ l < 33.34)
    ∧ (∀ now : Int, ∃ (bar : Bar) (l w : ℚ),
        ((updateTimeTable utc now [⟨"e1", "Ada"⟩]
            [sampleSession (clock 9 40) (clock 11 10)])[0]?.bind
          fun row => row.cells[((9 : Int) - 9).toNat]?) = some [bar]
        ∧ bar.left = JsNum.fin l ∧ bar.width = JsNum.fin w
        ∧ 66.6 ≤ l ∧ l < 66.7 ∧ 33.3 ≤ w ∧ w < 33.4)
    ∧ (∀ now : Int, ∃ bar : Bar,
        ((updateTimeTable utc now [⟨"e1", "Ada"⟩]
            [sampleSession (clock 9 40) (clock 11 10)])[0]?.bind
          fun row => row.cells[((10 : Int) - 9).toNat]?) = some [bar]
        ∧ bar.left = JsNum.fin 0 ∧ bar.width = JsNum.fin 100)
    ∧ (∀ now : Int, ∃ (bar : Bar) (w : ℚ),
        ((updateTimeTable utc now [⟨"e1", "Ada"⟩]
            [sampleSession (clock 9 40) (clock 11 10)])[0]?.bind
          fun row => row.cells[((11 : Int) - 9).toNat]?) = some [bar]
        ∧ bar.left = JsNum.fin 0 ∧ bar.width = JsNum.fin w ∧ 16.6 ≤ w ∧ w < 16.7) := by
  refine ⟨?_, specGeometry_valid, ?_, ?_, ?_, ?_⟩
  · intro tz now allEmployees allWorks i employee hi h h9 h18
    refine ⟨_, lookup_cell tz now allEmployees allWorks i employee hi h h9 h18, ?_⟩
    rw [hourWorks_eq_filter]
    apply forall2_map
    intro s _
    obtain ⟨l, w, hg, hl, hw, -, -, hl0, hw100⟩ := geometry_near tz now h s
    exact ⟨l, w, by simp [workBar, hg], by simp [workBar, hg], hl, hw, hl0, hw100⟩
  · intro now
    obtain ⟨l, w, hbar, hl, -, -, -⟩ := sample_bar 9 20 9 50 (by norm_num) (by norm_num)
      (by norm_num) (by norm_num) now 9
    obtain ⟨s1, s2, s3, s4⟩ := sample_spec 9 20 9 50 (by norm_num) (by norm_num) (by norm_num)
      (by norm_num) now
    have hwidth : (workBar utc now 9 (sampleSession (clock ((9 : Nat) : Int) ((20 : Nat) : Int))
        (clock ((9 : Nat) : Int) ((50 : Nat) : Int)))).width = JsNum.fin 50 := by
      simp only [workBar, barGeometry_ops, s1, s2, s3, s4, Nat.cast_ofNat, and_self, if_true]
      exact percent_half_hour
    rw [hbar] at hwidth
    have hcell := lookup_single utc now ⟨"e1", "Ada"⟩ _ 9 (by norm_num) (by norm_num)
      (sample_selected 9 20 9 50 (by norm_num) (by norm_num) (by norm_num) (by norm_num) now 9
        (Or.inl rfl))
    rw [hbar] at hcell
    norm_num at hl
    rw [abs_le] at hl
    refine ⟨_, l, hcell, rfl, hwidth, ?_, ?_⟩
    · norm_num
      linarith
    · norm_num
      linarith
  · intro now
    obtain ⟨l, w, hbar, hl, hw, -, -⟩ := sample_bar 9 40 11 10 (by norm_num) (by norm_num)
      (by norm_num) (by norm_num) now 9
    have hcell := lookup_single utc now ⟨"e1", "Ada"⟩ _ 9 (by norm_num) (by norm_num)
      (sample_selected 9 40 11 10 (by norm_num) (by norm_num) (by norm_num) (by norm_num) now 9
        (Or.inl rfl))
    rw [hbar] at hcell
    norm_num at hl hw
    rw [abs_le] at hl hw
    refine ⟨_, l, w, hcell, rfl, rfl, ?_, ?_, ?_, ?_⟩
    all_goals norm_num
    all_goals linarith
  · intro now
    obtain ⟨l, w, hbar, -, -, hl0, hw100⟩ := sample_bar 9 40 11 10 (by norm_num) (by norm_num)
      (by norm_num) (by norm_num) now 10
    have e1 := hl0 (by norm_num)
    have e2 := hw100 (by norm_num) (by norm_num)
    subst e1 e2
    have hcell := lookup_single utc now ⟨"e1", "Ada"⟩ _ 10 (by norm_num) (by norm_num)
      (sample_selected 9 40 11 10 (by norm_num) (by norm_num) (by norm_num) (by norm_num) now 10
        (Or.inr (Or.inr ⟨by norm_num, by norm_num⟩)))
    rw [hbar] at hcell
    exact ⟨_, hcell, rfl, rfl⟩
  · intro now
    obtain ⟨l, w, hbar, -, hw, hl0, -⟩ := sample_bar 9 40 11 10 (by norm_num) (by norm_num)
      (by norm_num) (by norm_num) now 11
    have e1 := hl0 (by norm_num)
    subst e1
    have hcell := lookup_single utc now ⟨"e1", "Ada"⟩ _ 11 (by norm_num) (by norm_num)
      (sample_selected 9 40 11 10 (by norm_num) (by norm_num) (by norm_num) (by norm_num) now 11
        (Or.inr (Or.inl rfl)))
    rw [hbar] at hcell
    norm_num at hw
    rw [abs_le] at hw
    refine ⟨_, w, hcell, rfl, rfl, ?_, ?_⟩
    · norm_num
      linarith
    · norm_num
      linarith

/-- Witness for C2 as amended: the general statement at the hour-9 cell of the session
09:40-11:10, and the formula of the specification at that session. -/
theorem timeline_bar_geometry_witness :
    (∃ cell, ((updateTimeTable utc 0 [⟨"e1", "Ada"⟩]
          [sampleSession (clock 9 40) (clock 11 10)])[0]?.bind
        fun row => row.cells[((9 : Int) - 9).toNat]?) = some cell
      ∧ List.Forall₂
          (fun (s : WorkSession) (bar : Bar) =>
            ∃ l w : ℚ, bar.left = JsNum.fin l ∧ bar.width = JsNum.fin w
              ∧ |l - (specGeometry utc 0 9 s).1| ≤ 1 / 10 ^ 13
              ∧ |w - (specGeometry utc 0 9 s).2| ≤ 1 / 10 ^ 13
              ∧ (specStartHour utc s ≠ some 9 → l = 0)
              ∧ (specStartHour utc s ≠ some 9 → specEndHour utc 0 s ≠ some 9 → w = 100))
          ([sampleSession (clock 9 40) (clock 11 10)].filter
            (specSelected utc 0 ⟨"e1", "Ada"⟩ 9)) cell)
    ∧ specGeometry utc 0 9 (sampleSession (clock 9 40) (clock 11 10))
        = (100 * (40 : ℚ) / 60, 100 - 100 * (40 : ℚ) / 60) := by
  refine ⟨timeline_bar_geometry.1 utc 0 [⟨"e1", "Ada"⟩]
    [sampleSession (clock 9 40) (clock 11 10)] 0 ⟨"e1", "Ada"⟩ rfl 9 (by decide) (by decide), ?_⟩
  have h := timeline_bar_geometry.2.1 utc 0 9 (sampleSession (clock 9 40) (clock 11 10))
    (clock 9 40) (clock 11 10) rfl (Or.inl rfl)
  obtain ⟨h1, h2⟩ := utc_clock 9 40 (by norm_num) (by norm_num)
  obtain ⟨h3, h4⟩ := utc_clock 11 10 (by norm_num) (by norm_num)
  simp only [Nat.cast_ofNat] at h1 h2 h3
  rw [h, h1, h2, h3]
  norm_num

theorem slotMinutes_sum (sh sm eh em : Int) (h9 : 9 ≤ sh) (h18 : eh ≤ 18)
    (hsm : 0 ≤ sm) (hem : em < 60) (hle : sh * 60 + sm ≤ eh * 60 + em) :
    (hourSlots.map (slotMinutes sh sm eh em)).sum = eh * 60 + em - (sh * 60 + sm) := by
  obtain ⟨g, hg⟩ : ∃ g : Int → Int,
      ∀ h, g h = min (eh * 60 + em) (max (sh * 60 + sm) (h * 60)) := ⟨_, fun _ => rfl⟩
  have key : ∀ h, slotMinutes sh sm eh em h = g (h + 1) - g h := by
    intro h
    rw [hg, hg]
    unfold slotMinutes
    omega
  have g9 : g 9 = sh * 60 + sm := by
    rw [hg]
    omega
  have g19 : g 19 = eh * 60 + em := by
    rw [hg]
    omega
  simp only [hourSlots, List.map, List.sum_cons, List.sum_nil, key]
  norm_num
  rw [g9, g19]

theorem fixedOffset_minute_of_day (offset ts te : Int)
    (hday : (fixedOffset offset).startOfDay ts = (fixedOffset offset).startOfDay te)
    (hle : ts ≤ te) :
    (fixedOffset offset).hours ts * 60 + (fixedOffset offset).minutes ts
      ≤ (fixedOffset offset).hours te * 60 + (fixedOffset offset).minutes te := by
  simp only [fixedOffset, msPerDay, msPerHour, msPerMinute] at *
  omega

theorem session_slot (tz : TimeZone) (now : Int) (s : WorkSession) (ts te : Int)
    (hs : s.startTime = some ts)
    (he : s.endTime = some (some te) ∨ (s.endTime = none ∧ te = now))
    (hle : tz.hours ts * 60 + tz.minutes ts ≤ tz.hours te * 60 + tz.minutes te) (h : Int) :
    ∃ l w : ℚ, (workBar tz now h s).left = JsNum.fin l ∧ (workBar tz now h s).width = JsNum.fin w
      ∧ 0 ≤ l ∧ 0 ≤ w ∧ l + w ≤ 100 + 1 / 10 ^ 12
      ∧ |(if (tz.hours ts : Int) = h ∨ (tz.hours te : Int) = h
              ∨ ((tz.hours ts : Int) < h ∧ h < (tz.hours te : Int)) then
            barMinutes (workBar tz now h s) else 0)
          - ((slotMinutes (tz.hours ts) (tz.minutes ts) (tz.hours te) (tz.minutes te) h : Int)
              : ℚ)| ≤ 1 / 10 ^ 13 := by
  have hsm := tz.minutes_lt ts
  have hem := tz.minutes_lt te
  have q1 : (tz.minutes ts : ℚ) < 60 := by exact_mod_cast hsm
  have q2 : (tz.minutes te : ℚ) < 60 := by exact_mod_cast hem
  have q3 : (0 : ℚ) ≤ tz.minutes ts := Nat.cast_nonneg _
  have q4 : (0 : ℚ) ≤ tz.minutes te := Nat.cast_nonneg _
  have e1 : specStartHour tz s = some (tz.hours ts : Int) := by simp [specStartHour, hs]
  have e2 : specEndHour tz now s = some (tz.hours te : Int) := by
    rcases he with he | ⟨he, rfl⟩ <;> simp [specEndHour, he]
  have e3 : specStartMinute tz s = (tz.minutes ts : ℚ) := by simp [specStartMinute, hs]
  have e4 : specEndMinute tz now s = (tz.minutes te : ℚ) := by
    rcases he with he | ⟨he, rfl⟩ <;> simp [specEndMinute, he]
  have t13 : (1 : ℚ) / 10 ^ 13 = 1 / 10000000000000 := by norm_num
  have t12 : (1 : ℚ) / 10 ^ 12 = 1 / 1000000000000 := by norm_num
  obtain ⟨l, w, hg, hl, hw, hl0, hw0, -, hw100⟩ := geometry_near tz now h s
  rw [specGeometry_valid tz now h s ts te hs he, t13] at hl hw
  rw [e1, e2] at hw0 hw100
  rw [e3, e4] at hw0
  have hw0' : 0 ≤ w := hw0 (fun a b => by
    have a' := Option.some.inj a
    have b' := Option.some.inj b
    have : tz.minutes ts ≤ tz.minutes te := by omega
    exact_mod_cast this)
  have hbm : barMinutes (workBar tz now h s) = w / 100 * 60 := by simp [barMinutes, workBar, hg]
  rw [t12, t13]
  refine ⟨l, w, by simp [workBar, hg], by simp [workBar, hg], hl0, hw0', ?_, ?_⟩
  · split_ifs at hl hw <;> rw [abs_le] at hl hw <;> dsimp only at hl hw <;> linarith
  · by_cases c1 : (tz.hours ts : Int) = h
    · by_cases c2 : (tz.hours te : Int) = h
      · rw [if_pos ⟨c1, c2⟩] at hw
        have hv : slotMinutes (tz.hours ts) (tz.minutes ts) (tz.hours te) (tz.minutes te) h
            = (tz.minutes te : Int) - (tz.minutes ts : Int) := by
          unfold slotMinutes
          omega
        rw [if_pos (Or.inl c1), hbm, hv]
        push_cast
        rw [abs_le] at hw ⊢
        dsimp only at hw
        constructor <;> linarith
      · rw [if_neg (fun hc => c2 hc.2), if_pos c1] at hw
        have hv : slotMinutes (tz.hours ts) (tz.minutes ts) (tz.hours te) (tz.minutes te) h
            = 60 - (tz.minutes ts : Int) := by
          unfold slotMinutes
          omega
        rw [if_pos (Or.inl c1), hbm, hv]
        push_cast
        rw [abs_le] at hw ⊢
        dsimp only at hw
        constructor <;> linarith
    · by_cases c2 : (tz.hours te : Int) = h
      · rw [if_neg (fun hc => c1 hc.1), if_neg c1, if_pos c2] at hw
        have hv : slotMinutes (tz.hours ts) (tz.minutes ts) (tz.hours te) (tz.minutes te) h
            = (tz.minutes te : Int) := by
          unfold slotMinutes
          omega
        rw [if_pos (Or.inr (Or.inl c2)), hbm, hv]
        push_cast
        rw [abs_le] at hw ⊢
        dsimp only at hw
        constructor <;> linarith
      · have hw' : w = 100 := hw100 (fun a => c1 (Option.some.inj a))
          (fun a => c2 (Option.some.inj a))
        by_cases c3 : (tz.hours ts : Int) < h ∧ h < (tz.hours te : Int)
        · have hv : slotMinutes (tz.hours ts) (tz.minutes ts) (tz.hours te) (tz.minutes te) h
              = 60 := by
            unfold slotMinutes
            omega
          rw [if_pos (Or.inr (Or.inr c3)), hbm, hv, hw']
          norm_num
        · have hv : slotMinutes (tz.hours ts) (tz.minutes ts) (tz.hours te) (tz.minutes te) h
              = 0 := by
            unfold slotMinutes
            omega
          rw [if_neg (by tauto), hv]
          norm_num

theorem sample_cell (a b c d : Nat) (ha : a < 24) (hb : b < 60) (hc : c < 24) (hd : d < 60)
    (now h : Int) :
    (hourWorks utc now [sampleSession (clock a b) (clock c d)] ⟨"e1", "Ada"⟩ h).map
        (workBar utc now h)
      = if (a : Int) = h ∨ (c : Int) = h ∨ ((a : Int) < h ∧ h < (c : Int)) then
          [workBar utc now h (sampleSession (clock a b) (clock c d))]
        else [] := by
  obtain ⟨h1, h2, -, -⟩ := sample_spec a b c d ha hb hc hd now
  rw [hourWorks_eq_filter]
  split_ifs with hsel
  · simp [List.filter, sample_selected a b c d ha hb hc hd now h hsel]
  · have hf : specSelected utc now ⟨"e1", "Ada"⟩ h (sampleSession (clock a b) (clock c d))
        = false := by
      unfold specSelected
      rw [h1, h2]
      simp only [sampleSession, decide_True, Bool.true_and, Option.some.injEq, Bool.or_eq_false_iff,
        decide_eq_false_iff_not]
      tauto
    simp [List.filter, hf]

theorem percent_five_span :
    JsNum.mul (JsNum.div (JsNum.sub (JsNum.fin ((5 : Nat) : ℚ)) (JsNum.fin ((0 : Nat) : ℚ)))
      (JsNum.fin 60)) (JsNum.fin 100) = JsNum.fin (2345624805922133 / 281474976710656) := by
  rw [sub_minutes 5 0 (by norm_num) (by norm_num)]
  have e : (((5 : Nat) : ℚ) - ((0 : Nat) : ℚ)) / 60 = (5 : ℚ) / 60 := by norm_num
  have h1 : JsNum.toDouble ((((5 : Nat) : ℚ) - ((0 : Nat) : ℚ)) / 60)
      = JsNum.fin (6004799503160661 / 72057594037927936) := by
    have := JsNum.toDouble_eq ((5 : ℚ) / 60) (-4) 6004799503160661 (by norm_num)
      (by norm_num [abs_of_pos]) (by norm_num [abs_of_pos]) (by norm_num [abs_lt])
      (by norm_num [JsNum.maxDouble, abs_of_pos])
    rw [e, this]
    norm_num
  have h2 : JsNum.toDouble ((6004799503160661 / 72057594037927936 : ℚ) * 100)
      = JsNum.fin (2345624805922133 / 281474976710656) := by
    have := JsNum.toDouble_eq ((6004799503160661 / 72057594037927936 : ℚ) * 100) 3
      4691249611844266 (by norm_num) (by norm_num [abs_of_pos]) (by norm_num [abs_of_pos])
      (by norm_num [abs_lt]) (by norm_num [JsNum.maxDouble, abs_of_pos])
    rw [this]
    norm_num
  exact percent_eval _ _ _ h1 h2

theorem percent_two :
    JsNum.mul (JsNum.div (JsNum.fin 2) (JsNum.fin 60)) (JsNum.fin 100)
      = JsNum.fin (7505999378950827 / 2251799813685248) := by
  have h1 : JsNum.toDouble ((2 : ℚ) / 60)
      = JsNum.fin (4803839602528529 / 144115188075855872) := by
    have := JsNum.toDouble_eq ((2 : ℚ) / 60) (-5) 4803839602528529 (by norm_num)
      (by norm_num [abs_of_pos]) (by norm_num [abs_of_pos]) (by norm_num [abs_lt])
      (by norm_num [JsNum.maxDouble, abs_of_pos])
    rw [this]
    norm_num
  have h2 : JsNum.toDouble ((4803839602528529 / 144115188075855872 : ℚ) * 100)
      = JsNum.fin (7505999378950827 / 2251799813685248) := by
    have := JsNum.toDouble_eq ((4803839602528529 / 144115188075855872 : ℚ) * 100) 1
      7505999378950827 (by norm_num) (by norm_num [abs_of_pos]) (by norm_num [abs_of_pos])
      (by norm_num [abs_lt]) (by norm_num [JsNum.maxDouble, abs_of_pos])
    rw [this]
    norm_num
  exact percent_eval 2 _ _ h1 h2

theorem hundred_minus_percent_two :
    JsNum.sub (JsNum.fin 100) (JsNum.fin (7505999378950827 / 2251799813685248))
      = JsNum.fin (6802311937174187 / 70368744177664) := by
  rw [sub_fin]
  have := JsNum.toDouble_eq ((100 : ℚ) - 7505999378950827 / 2251799813685248) 6
    6802311937174187 (by norm_num) (by norm_num [abs_of_pos]) (by norm_num [abs_of_pos])
    (by norm_num [abs_lt]) (by norm_num [JsNum.maxDouble, abs_of_pos])
  rw [this]
  norm_num

/-- C12, counterexample: the session 09:00-09:05 has a single bar in the whole timeline, of
width `2345624805922133 / 2^48` (8.333333333333332, the binary64 result of `((5 - 0) / 60) * 100`),
and `width/100 * 60` is not 5; the bar of the session 09:02-10:00 in the hour-9 cell has left
`7505999378950827 / 2^51` (3.3333333333333335) and width `6802311937174187 / 2^46`
(96.66666666666667), whose sum exceeds 100. -/
theorem session_minutes_are_rounded :
    (∀ now : Int, ∃ bar : Bar,
      tableBars (updateTimeTable utc now [⟨"e1", "Ada"⟩]
          [sampleSession (clock 9 0) (clock 9 5)]) = [bar]
        ∧ bar.width = JsNum.fin (2345624805922133 / 281474976710656)
        ∧ barMinutes bar ≠ 5)
    ∧ (∀ now : Int, ∃ bar : Bar,
      ((updateTimeTable utc now [⟨"e1", "Ada"⟩]
          [sampleSession (clock 9 2) (clock 10 0)])[0]?.bind
        fun row => row.cells[((9 : Int) - 9).toNat]?) = some [bar]
        ∧ bar.left = JsNum.fin (7505999378950827 / 2251799813685248)
        ∧ bar.width = JsNum.fin (6802311937174187 / 70368744177664))
    ∧ (100 : ℚ) < 7505999378950827 / 2251799813685248 + 6802311937174187 / 70368744177664 := by
  refine ⟨?_, ?_, by norm_num⟩
  · intro now
    obtain ⟨h1, h2, h3, h4⟩ := sample_spec 9 0 9 5 (by norm_num) (by norm_num) (by norm_num)
      (by norm_num) now
    have hbars : tableBars (updateTimeTable utc now [⟨"e1", "Ada"⟩]
          [sampleSession (clock ((9 : Nat) : Int) ((0 : Nat) : Int))
            (clock ((9 : Nat) : Int) ((5 : Nat) : Int))])
        = [workBar utc now 9 (sampleSession (clock ((9 : Nat) : Int) ((0 : Nat) : Int))
            (clock ((9 : Nat) : Int) ((5 : Nat) : Int)))] := by
      simp only [tableBars, updateTimeTable, rowBars, hourSlots, List.map, List.foldr,
        sample_cell 9 0 9 5 (by norm_num) (by norm_num) (by norm_num) (by norm_num) now]
      norm_num
    have hwidth : (workBar utc now 9 (sampleSession (clock ((9 : Nat) : Int) ((0 : Nat) : Int))
        (clock ((9 : Nat) : Int) ((5 : Nat) : Int)))).width
        = JsNum.fin (2345624805922133 / 281474976710656) := by
      simp only [workBar, barGeometry_ops, h1, h2, h3, h4, and_self, if_true]
      exact percent_five_span
    refine ⟨_, hbars, hwidth, ?_⟩
    simp only [barMinutes, hwidth]
    norm_num
  · intro now
    obtain ⟨h1, h2, h3, h4⟩ := sample_spec 9 2 10 0 (by norm_num) (by norm_num) (by norm_num)
      (by norm_num) now
    have hne : ¬ ((some ((10 : Nat) : Int) : Option Int) = some 9) := by decide
    have hgeo : barGeometry utc now 9 (sampleSession (clock ((9 : Nat) : Int) ((2 : Nat) : Int))
        (clock ((10 : Nat) : Int) ((0 : Nat) : Int)))
        = (JsNum.fin (7505999378950827 / 2251799813685248),
           JsNum.fin (6802311937174187 / 70368744177664)) := by
      rw [barGeometry_ops, h1, h2, h3, if_neg (fun hc => hne hc.2), if_pos (by decide)]
      simp only [Nat.cast_ofNat, percent_two, hundred_minus_percent_two]
    refine ⟨_, lookup_single utc now _ _ 9 (by norm_num) (by norm_num)
      (sample_selected 9 2 10 0 (by norm_num) (by norm_num) (by norm_num) (by norm_num) now 9
        (Or.inl rfl)), ?_, ?_⟩
    · exact congrArg Prod.fst hgeo
    · exact congrArg Prod.snd hgeo

/-- C12, as amended: for a session of any roster and bucket with start `sh:sm` and effective end
`eh:em` such that `9 ≤ sh`, `eh ≤ 18` and `sh*60 + sm ≤ eh*60 + em`, the bar of the session
in every slot of the row of its employee has `0 ≤ left`, `0 ≤ width` and
`left + width ≤ 100 + 10^-12`, the session has a bar in slot `h` exactly when `sh = h`, `eh = h`
or `sh < h < eh`, and the sum over these slots of `width/100 * 60` differs from
`(eh*60 + em) - (sh*60 + sm)` by at most `10^-12`: binary64 rounding keeps the equality from
being exact.  In a zone with a fixed offset the order of the minutes follows from start and end
lying on the same local day with `start ≤ end`. -/
theorem session_bars_add_up :
    (∀ (tz : TimeZone) (now : Int) (allEmployees : List Employee) (allWorks : List WorkSession)
      (i : Nat) (employee : Employee) (s : WorkSession) (ts te : Int),
      allEmployees[i]? = some employee → s ∈ allWorks → s.employeeId = employee.id →
      s.startTime = some ts → (s.endTime = some (some te) ∨ (s.endTime = none ∧ te = now)) →
      9 ≤ tz.hours ts → tz.hours te ≤ 18 →
      tz.hours ts * 60 + tz.minutes ts ≤ tz.hours te * 60 + tz.minutes te →
      ∃ bars : Int → Bar,
        (∀ h : Int, 9 ≤ h → h ≤ 18 →
          ∃ cell, ((updateTimeTable tz now allEmployees allWorks)[i]?.bind
              fun row => row.cells[(h - 9).toNat]?) = some cell
            ∧ List.Forall₂ (fun (s' : WorkSession) (bar : Bar) => s' = s → bar = bars h)
                (allWorks.filter (specSelected tz now employee h)) cell
            ∧ (s ∈ allWorks.filter (specSelected tz now employee h) ↔
                ((tz.hours ts : Int) = h ∨ (tz.hours te : Int) = h
                  ∨ ((tz.hours ts : Int) < h ∧ h < (tz.hours te : Int))))
            ∧ ∃ l w : ℚ, (bars h).left = JsNum.fin l ∧ (bars h).width = JsNum.fin w
                ∧ 0 ≤ l ∧ 0 ≤ w ∧ l + w ≤ 100 + 1 / 10 ^ 12)
        ∧ |(hourSlots.map fun h =>
              if (tz.hours ts : Int) = h ∨ (tz.hours te : Int) = h
                  ∨ ((tz.hours ts : Int) < h ∧ h < (tz.hours te : Int)) then
                barMinutes (bars h) else 0).sum
            - (((tz.hours te : ℚ) * 60 + (tz.minutes te : ℚ))
                - ((tz.hours ts : ℚ) * 60 + (tz.minutes ts : ℚ)))| ≤ 1 / 10 ^ 12)
    ∧ (∀ offset ts te : Int,
      (fixedOffset offset).startOfDay ts = (fixedOffset offset).startOfDay te → ts ≤ te →
      (fixedOffset offset).hours ts * 60 + (fixedOffset offset).minutes ts
        ≤ (fixedOffset offset).hours te * 60 + (fixedOffset offset).minutes te) := by
  refine ⟨?_, fixedOffset_minute_of_day⟩
  intro tz now allEmployees allWorks i employee s ts te hi hmem hid hs he h9 h18 hle
  refine ⟨fun h => workBar tz now h s, ?_, ?_⟩
  · intro h hh9 hh18
    refine ⟨_, lookup_cell tz now allEmployees allWorks i employee hi h hh9 hh18, ?_, ?_, ?_⟩
    · rw [hourWorks_eq_filter]
      apply forall2_map
      intro s' _ e
      rw [e]
    · have e1 : specStartHour tz s = some (tz.hours ts : Int) := by simp [specStartHour, hs]
      have e2 : specEndHour tz now s = some (tz.hours te : Int) := by
        rcases he with he | ⟨he, rfl⟩ <;> simp [specEndHour, he]
      rw [List.mem_filter]
      unfold specSelected
      rw [e1, e2]
      simp [hmem, hid, or_assoc]
    · obtain ⟨l, w, k1, k2, k3, k4, k5, -⟩ := session_slot tz now s ts te hs he hle h
      exact ⟨l, w, k1, k2, k3, k4, k5⟩
  · have S := slotMinutes_sum (tz.hours ts) (tz.minutes ts) (tz.hours te) (tz.minutes te)
      (by omega) (by omega) (by omega) (by have := tz.minutes_lt te; omega) (by omega)
    simp only [hourSlots, List.map, List.sum_cons, List.sum_nil] at S ⊢
    have S' := congrArg (Int.cast : Int → ℚ) S
    push_cast at S'
    obtain ⟨-, -, -, -, -, -, -, k9⟩ := session_slot tz now s ts te hs he hle 9
    obtain ⟨-, -, -, -, -, -, -, k10⟩ := session_slot tz now s ts te hs he hle 10
    obtain ⟨-, -, -, -, -, -, -, k11⟩ := session_slot tz now s ts te hs he hle 11
    obtain ⟨-, -, -, -, -, -, -, k12⟩ := session_slot tz now s ts te hs he hle 12
    obtain ⟨-, -, -, -, -, -, -, k13⟩ := session_slot tz now s ts te hs he hle 13
    obtain ⟨-, -, -, -, -, -, -, k14⟩ := session_slot tz now s ts te hs he hle 14
    obtain ⟨-, -, -, -, -, -, -, k15⟩ := session_slot tz now s ts te hs he hle 15
    obtain ⟨-, -, -, -, -, -, -, k16⟩ := session_slot tz now s ts te hs he hle 16
    obtain ⟨-, -, -, -, -, -, -, k17⟩ := session_slot tz now s ts te hs he hle 17
    obtain ⟨-, -, -, -, -, -, -, k18⟩ := session_slot tz now s ts te hs he hle 18
    have t13 : (1 : ℚ) / 10 ^ 13 = 1 / 10000000000000 := by norm_num
    have t12 : (1 : ℚ) / 10 ^ 12 = 1 / 1000000000000 := by norm_num
    rw [t13, abs_le] at k9 k10 k11 k12 k13 k14 k15 k16 k17 k18
    rw [t12, abs_le]
    constructor <;> linarith

/-- Witness for C12 as amended: the general statement at the session 09:40-11:10 in UTC, and
the order of the minutes of its start and end from the statement on fixed offsets. -/
theorem session_bars_add_up_witness :
    (∃ bars : Int → Bar,
      (∀ h : Int, 9 ≤ h → h ≤ 18 →
        ∃ cell, ((updateTimeTable utc 0 [⟨"e1", "Ada"⟩]
              [sampleSession (clock 9 40) (clock 11 10)])[0]?.bind
            fun row => row.cells[(h - 9).toNat]?) = some cell
          ∧ List.Forall₂
              (fun (s' : WorkSession) (bar : Bar) =>
                s' = sampleSession (clock 9 40) (clock 11 10) → bar = bars h)
              ([sampleSession (clock 9 40) (clock 11 10)].filter
                (specSelected utc 0 ⟨"e1", "Ada"⟩ h)) cell
          ∧ (sampleSession (clock 9 40) (clock 11 10)
                ∈ [sampleSession (clock 9 40) (clock 11 10)].filter
                  (specSelected utc 0 ⟨"e1", "Ada"⟩ h) ↔
              ((utc.hours (clock 9 40) : Int) = h ∨ (utc.hours (clock 11 10) : Int) = h
                ∨ ((utc.hours (clock 9 40) : Int) < h ∧ h < (utc.hours (clock 11 10) : Int))))
          ∧ ∃ l w : ℚ, (bars h).left = JsNum.fin l ∧ (bars h).width = JsNum.fin w
              ∧ 0 ≤ l ∧ 0 ≤ w ∧ l + w ≤ 100 + 1 / 10 ^ 12)
      ∧ |(hourSlots.map fun h =>
            if (utc.hours (clock 9 40) : Int) = h ∨ (utc.hours (clock 11 10) : Int) = h
                ∨ ((utc.hours (clock 9 40) : Int) < h ∧ h < (utc.hours (clock 11 10) : Int)) then
              barMinutes (bars h) else 0).sum
          - (((utc.hours (clock 11 10) : ℚ) * 60 + (utc.minutes (clock 11 10) : ℚ))
              - ((utc.hours (clock 9 40) : ℚ) * 60 + (utc.minutes (clock 9 40) : ℚ)))|
        ≤ 1 / 10 ^ 12)
    ∧ (fixedOffset 0).hours (clock 9 40) * 60 + (fixedOffset 0).minutes (clock 9 40)
        ≤ (fixedOffset 0).hours (clock 11 10) * 60 + (fixedOffset 0).minutes (clock 11 10) :=
  ⟨session_bars_add_up.1 utc 0 [⟨"e1", "Ada"⟩] [sampleSession (clock 9 40) (clock 11 10)] 0
      ⟨"e1", "Ada"⟩ (sampleSession (clock 9 40) (clock 11 10)) (clock 9 40) (clock 11 10) rfl
      (List.mem_singleton.2 rfl) rfl rfl (Or.inl rfl) (by decide) (by decide) (by decide),
    session_bars_add_up.2 0 (clock 9 40) (clock 11 10) (by decide) (by decide)⟩

end Admin

end EmployeeTracking
